import Mathlib

/-!
Verification development for the recursive literature-research engine
(orchestration core: inner loop, iteration loop, branch manager, managing
agent, master agent).  The definitions below are shallow embeddings of the
Python source under `src/src/orchestration/`; each definition's doc comment
names the function it embeds.  Network calls, LLM completions and other
effects are passed in as explicit oracle arguments; exceptions raised by
those effects appear as `Option`/`Except` values.
-/

namespace ERLA

/-- Python truthiness for an optional string: `None` and `""` are falsy. -/
def pyTruthy : Option String → Bool
  | none => false
  | some s => decide (s ≠ "")

/-- Python `a or d` for an optional string `a` and a string default `d`. -/
def pyOr (a : Option String) (d : String) : String :=
  if pyTruthy a then a.getD "" else d

/-- `BranchStatus` (models.py lines 14-21). -/
inductive BranchStatus
  | pending
  | running
  | paused
  | completed
  | pruned
deriving DecidableEq, Repr

/-- `InnerLoopMode` (models.py lines 24-28). -/
inductive InnerLoopMode
  | search_summarize
  | hypothesis
deriving DecidableEq, Repr

/-- `PaperDetails` restricted to the fields the orchestration core reads
(semantic_scholar models; `citation_count`, `title`, `abstract`, `full_text`
are optional in the source). -/
structure PaperDetails where
  paper_id : String
  title : Option String := none
  abstract : Option String := none
  full_text : Option String := none
  citation_count : Option Nat := none
deriving DecidableEq, Repr

/-- `ValidatedSummary` (models.py lines 31-43), timestamp omitted. -/
structure ValidatedSummary where
  paper_id : String
  paper_title : String
  summary : String
  groundedness : ℚ
deriving DecidableEq, Repr

/-- The `ValidatedSummary` constructor together with its `__post_init__`
check (models.py lines 41-43): raises `ValueError` when groundedness is
negative, accepts any other value. -/
def ValidatedSummary.make (paper_id paper_title summary : String)
    (groundedness : ℚ) : Except String ValidatedSummary :=
  if groundedness < 0 then .error "Groundedness must be non-negative"
  else .ok ⟨paper_id, paper_title, summary, groundedness⟩

/-- `ResearchHypothesis` restricted to the fields the orchestration core
reads (models.py lines 46-59), timestamp omitted. -/
structure ResearchHypothesis where
  id : String
  text : String
  confidence : ℚ
deriving DecidableEq, Repr

/-- `IterationResult` (models.py lines 62-71), timestamp omitted. -/
structure IterationResult where
  iteration_number : Nat
  papers_found : List PaperDetails
  summaries : List ValidatedSummary
  hypotheses : Option (List ResearchHypothesis)
  context_tokens_used : Nat
deriving DecidableEq, Repr

/-! Insertion-ordered dictionaries.  Python `dict` assigns `d[k] = v` by
replacing the value in place when the key exists (keeping its position) and
appending otherwise; we embed dictionaries as association lists with exactly
that update. -/

/-- Membership test of a key in an association list (Python `k in d`). -/
def dict_mem {α : Type} (l : List (String × α)) (k : String) : Bool :=
  l.any (fun kv => kv.1 = k)

/-- Lookup (Python `d.get(k)`). -/
def dict_get {α : Type} (l : List (String × α)) (k : String) : Option α :=
  (l.find? (fun kv => kv.1 = k)).map (·.2)

/-- Python `d[k] = v`: replace in place if present, else append. -/
def dict_insert {α : Type} (l : List (String × α)) (k : String) (v : α) :
    List (String × α) :=
  if dict_mem l k then l.map (fun kv => if kv.1 = k then (k, v) else kv)
  else l ++ [(k, v)]

/-- Keys of an association list (Python `d.keys()`). -/
def dict_keys {α : Type} (l : List (String × α)) : List String :=
  l.map (·.1)

/-- `Branch` (models.py lines 84-99), restricted to the fields the claims
read; timestamps and the session filters are omitted. -/
structure Branch where
  id : String
  query : String
  mode : InnerLoopMode
  status : BranchStatus
  parent_branch_id : Option String := none
  iterations : List IterationResult := []
  accumulated_papers : List (String × PaperDetails) := []
  accumulated_summaries : List (String × ValidatedSummary) := []
  context_window_used : Nat := 0
  max_context_window : Nat := 128000
deriving DecidableEq, Repr

/-- `Branch.context_utilization` (models.py lines 101-104). -/
def Branch.context_utilization (b : Branch) : ℚ :=
  (b.context_window_used : ℚ) / (b.max_context_window : ℚ)

/-- `Branch.add_iteration` (models.py lines 126-138): append the result,
add its token count, and upsert its papers and summaries. -/
def Branch.add_iteration (b : Branch) (r : IterationResult) : Branch :=
  { b with
    iterations := b.iterations ++ [r]
    context_window_used := b.context_window_used + r.context_tokens_used
    accumulated_papers :=
      r.papers_found.foldl (fun acc p => dict_insert acc p.paper_id p)
        b.accumulated_papers
    accumulated_summaries :=
      r.summaries.foldl (fun acc s => dict_insert acc s.paper_id s)
        b.accumulated_summaries }

/-- `Branch.get_all_hypotheses` (models.py lines 140-146). -/
def Branch.get_all_hypotheses (b : Branch) : List ResearchHypothesis :=
  b.iterations.foldl
    (fun acc it => match it.hypotheses with
      | some hs => acc ++ hs
      | none => acc) []

/-- `LoopState` (models.py lines 149-159), restricted to the fields the
claims read.  `branches` is the insertion-ordered `dict[str, Branch]`. -/
structure LoopState where
  loop_id : String
  loop_number : Nat
  branches : List (String × Branch) := []
  hypotheses : List ResearchHypothesis := []
deriving DecidableEq, Repr

/-- `LoopState.get_branch` (models.py lines 190-192). -/
def LoopState.get_branch (s : LoopState) (id : String) : Option Branch :=
  dict_get s.branches id

/-- `LoopState.add_branch` (models.py lines 185-188). -/
def LoopState.add_branch (s : LoopState) (b : Branch) : LoopState :=
  { s with branches := dict_insert s.branches b.id b }

/-- Replacement of one branch's record in the state map.  In the source the
`Branch` objects are mutated in place; functionally this is the update of
the entry whose key is the branch id. -/
def LoopState.update_branch (s : LoopState) (id : String) (b : Branch) :
    LoopState :=
  { s with branches := s.branches.map (fun kv => if kv.1 = id then (id, b) else kv) }

/-- `LoopState.collect_all_hypotheses` (models.py lines 194-199). -/
def LoopState.collect_all_hypotheses (s : LoopState) : List ResearchHypothesis :=
  s.branches.foldl (fun acc kv => acc ++ kv.2.get_all_hypotheses) s.hypotheses

/-- Well-formedness of a state map: every entry is keyed by its branch's id
and keys are distinct.  `LoopState.add_branch` and branch creation maintain
this in the source. -/
def LoopState.wf (s : LoopState) : Prop :=
  (∀ kv ∈ s.branches, kv.1 = kv.2.id) ∧ (s.branches.map (·.1)).Nodup

/-! ## Inner loop: summarize-and-validate (inner_loop.py lines 430-522) -/

/-- One summarize+validate attempt as observed by
`InnerLoop._summarize_and_validate`.  The summarizer call and the HaluGate
call are external; an attempt in which either raises is modelled as `none`
(the source logs and `continue`s).  A successful attempt carries the
produced summary text, the groundedness score the gate computed for it, and
the gate's NLI contradiction count. -/
structure AttemptOutcome where
  summary : String
  groundedness : ℚ
  nli_contradictions : Nat
deriving DecidableEq, Repr

/-- The retry loop of `_summarize_and_validate` (inner_loop.py lines
453-516) over a list of attempt outcomes, threading the running best
summary and best groundedness (initially `None` and `0.0`).  The best pair
is updated on strict improvement (line 490) before the acceptance check
(line 495); after the loop the best attempt is returned when its summary is
truthy and its groundedness is at least 0.7 (line 505). -/
def sv_loop (threshold : ℚ) (paper : PaperDetails) :
    List (Option AttemptOutcome) → Option String → ℚ → Option ValidatedSummary
  | [], bestSummary, bestG =>
    if pyTruthy bestSummary ∧ 7/10 ≤ bestG then
      some ⟨paper.paper_id, pyOr paper.title "Unknown", bestSummary.getD "", bestG⟩
    else none
  | none :: rest, bestSummary, bestG => sv_loop threshold paper rest bestSummary bestG
  | some o :: rest, bestSummary, bestG =>
    if threshold ≤ o.groundedness ∧ o.nli_contradictions = 0 then
      some ⟨paper.paper_id, pyOr paper.title "Unknown", o.summary, o.groundedness⟩
    else
      sv_loop threshold paper rest
        (if bestG < o.groundedness then some o.summary else bestSummary)
        (if bestG < o.groundedness then o.groundedness else bestG)

/-- The context string `paper.full_text or paper.abstract or ""`
(inner_loop.py line 443). -/
def sv_context (paper : PaperDetails) : String :=
  pyOr paper.full_text (pyOr paper.abstract "")

/-- `InnerLoop._summarize_and_validate` (inner_loop.py lines 430-522):
return `None` when the paper has no content, otherwise run exactly two
attempts (`for attempt in range(2)`).  `threshold` is the configured
`groundedness_threshold` (default 0.95). -/
def summarize_and_validate (threshold : ℚ) (paper : PaperDetails)
    (a1 a2 : Option AttemptOutcome) : Option ValidatedSummary :=
  if sv_context paper = "" then none
  else sv_loop threshold paper [a1, a2] none 0

/-- The best (summary, groundedness) pair the retry loop tracks (lines
490-492): strict improvement, threaded through the attempt list. -/
def best_fold : List (Option AttemptOutcome) → Option String → ℚ → Option String × ℚ
  | [], bestSummary, bestG => (bestSummary, bestG)
  | none :: rest, bestSummary, bestG => best_fold rest bestSummary bestG
  | some o :: rest, bestSummary, bestG =>
    best_fold rest
      (if bestG < o.groundedness then some o.summary else bestSummary)
      (if bestG < o.groundedness then o.groundedness else bestG)

/-- The best attempt over a whole attempt list, starting from
`(None, 0.0)`. -/
def best_attempt (attempts : List (Option AttemptOutcome)) : Option String × ℚ :=
  best_fold attempts none 0

/-- Whether an attempt outcome passes the strict acceptance check of
inner_loop.py line 495. -/
def strict_accept (threshold : ℚ) : Option AttemptOutcome → Bool
  | none => false
  | some o => decide (threshold ≤ o.groundedness ∧ o.nli_contradictions = 0)

/-! ## Branch manager (branch_manager.py) -/

/-- `BranchConfig` (config/loader.py lines 57-63) with its defaults. -/
structure BranchConfig where
  max_context_window : Nat := 128000
  context_split_threshold : ℚ := 4/5
  min_papers_for_hypothesis_mode : Nat := 10
  max_branches : Nat := 10
deriving DecidableEq, Repr

/-- `BranchManager.create_branch` (branch_manager.py lines 54-96): a fresh
PENDING branch; the uuid-derived id is an explicit argument. -/
def create_branch (id query : String) (mode : InnerLoopMode)
    (parent_branch_id : Option String) (max_ctx : Nat) : Branch :=
  { id := id, query := query, mode := mode, status := .pending,
    parent_branch_id := parent_branch_id, max_context_window := max_ctx }

/-- One pass of the copy loop shared by `BranchManager.split_branch`
(branch_manager.py lines 145-149) and `MasterAgent._execute_managed_split`
(master_agent.py lines 787-791): copy the parent's paper and summary with
this id into the child when present. -/
def copy_step (parent c : Branch) (pid : String) : Branch :=
  let c := match dict_get parent.accumulated_papers pid with
    | some p => { c with accumulated_papers := dict_insert c.accumulated_papers pid p }
    | none => c
  match dict_get parent.accumulated_summaries pid with
  | some s => { c with accumulated_summaries := dict_insert c.accumulated_summaries pid s }
  | none => c

/-- The copy loop over one paper group (branch_manager.py lines 144-149,
master_agent.py lines 786-791). -/
def copy_group (parent child : Branch) (group : List String) : Branch :=
  group.foldl (copy_step parent) child

/-- `BranchManager.split_branch` (branch_manager.py lines 98-161).  The
splitter's output (groups, queries, labels — zipped as in the source, so
the shortest list bounds the children) is an oracle argument, as is the
uuid generator for child ids.  Returns the child branches and the parent
with its final COMPLETED status. -/
def split_branch (idGen : Nat → String) (max_ctx : Nat) (branch : Branch)
    (groups : List (List String)) (queries labels : List String) :
    List Branch × Branch :=
  let triples := groups.zip (queries.zip labels)
  let children := triples.enum.map
    (fun it =>
      copy_group branch
        (create_branch (idGen it.1) it.2.2.1 branch.mode (some branch.id) max_ctx)
        it.2.1)
  (children, { branch with status := .completed })

/-- `BranchManager.prune_branch` (branch_manager.py lines 163-178). -/
def prune_branch (b : Branch) : Branch :=
  { b with status := .pruned }

/-- `BranchManager.should_split` (branch_manager.py lines 196-206). -/
def should_split (cfg : BranchConfig) (b : Branch) : Bool :=
  decide (cfg.context_split_threshold ≤ b.context_utilization)

/-- `BranchManager.should_enable_hypothesis_mode` (branch_manager.py lines
208-223). -/
def should_enable_hypothesis_mode (cfg : BranchConfig) (b : Branch) : Bool :=
  if b.mode = .hypothesis then false
  else decide (cfg.min_papers_for_hypothesis_mode ≤ b.accumulated_papers.length)

/-- `BranchManager.get_next_branch` (branch_manager.py lines 241-268):
first RUNNING branch in map order, else first PENDING branch, else null. -/
def get_next_branch (s : LoopState) : Option Branch :=
  match s.branches.find? (fun kv => kv.2.status = .running) with
  | some kv => some kv.2
  | none => (s.branches.find? (fun kv => kv.2.status = .pending)).map (·.2)

/-! ## Context warnings -/

/-- The tier of a context warning.  The source interpolates the utilization
percentage into an f-string; only the tier and the some/none structure are
modelled. -/
inductive ContextWarning
  | critical
  | high
  | moderate
deriving DecidableEq, Repr

/-- The warning component of `ManagingAgent._get_context_status`
(managing_agent.py lines 294-319): CRITICAL at ≥ 0.90, High at ≥ 0.80,
Moderate at ≥ 0.70, otherwise no warning. -/
def get_context_status_warning (b : Branch) : Option ContextWarning :=
  if 9/10 ≤ b.context_utilization then some .critical
  else if 4/5 ≤ b.context_utilization then some .high
  else if 7/10 ≤ b.context_utilization then some .moderate
  else none

/-- Modelled from the spec: `BranchManager.get_context_warning(branch)`
(spec §4.4) is called at master_agent.py line 306 but is missing from
branch_manager.py; the spec says it returns a human-readable warning string
for utilization ≥ 0.70 / ≥ 0.80 / ≥ 0.90 and null otherwise. -/
def get_context_warning (b : Branch) : Option ContextWarning :=
  if 9/10 ≤ b.context_utilization then some .critical
  else if 4/5 ≤ b.context_utilization then some .high
  else if 7/10 ≤ b.context_utilization then some .moderate
  else none

/-! ## Managing agent (managing_agent.py) -/

/-- `BranchAction` (managing_agent.py lines 33-38). -/
inductive BranchAction
  | continue_exploration
  | split
  | wrap_up
deriving DecidableEq, Repr

/-- `SplitRecommendation` (managing_agent.py lines 53-65), restricted to
the fields the claims read. -/
structure SplitRecommendation where
  should_split : Bool
  action : BranchAction
  num_branches : Nat
  paper_groups : List (List String)
  group_queries : List String
  group_labels : List String
  reasoning : String
  context_warning : Option ContextWarning := none
deriving DecidableEq, Repr

/-- `SplitRecommendation.continue_exploring` (managing_agent.py lines
67-80). -/
def SplitRecommendation.continue_exploring (reasoning : String)
    (context_warning : Option ContextWarning := none) : SplitRecommendation :=
  { should_split := false, action := .continue_exploration, num_branches := 0,
    paper_groups := [], group_queries := [], group_labels := [],
    reasoning := reasoning, context_warning := context_warning }

/-- `SplitRecommendation.wrap_up` (managing_agent.py lines 82-94). -/
def SplitRecommendation.make_wrap_up (reasoning : String) : SplitRecommendation :=
  { should_split := false, action := .wrap_up, num_branches := 0,
    paper_groups := [], group_queries := [], group_labels := [],
    reasoning := reasoning, context_warning := none }

/-- One branch entry of the `split_config.branches` array of a
`make_branch_decision` tool call, as `_parse_decision_response` reads it
with `.get` defaults (managing_agent.py lines 743-745). -/
structure BranchSpec where
  label : Option String := none
  query : Option String := none
  paper_ids : List String := []
deriving DecidableEq, Repr

/-- The `split_config` object of a decision tool call.  A missing or falsy
`branches` array is an empty list here. -/
structure SplitConfigInput where
  branches : List BranchSpec := []
deriving DecidableEq, Repr

/-- The input of a `make_branch_decision` tool call as the parser reads it.
`parse_raises` models any exception while reading the input (caught at
managing_agent.py lines 771-773, making the parser return `None`);
`action`/`reasoning`/`split_config` model `input_data.get(...)`. -/
structure DecisionInput where
  parse_raises : Bool := false
  action : Option String := none
  reasoning : Option String := none
  split_config : Option SplitConfigInput := none
deriving DecidableEq, Repr

/-- `ManagingAgent._parse_decision_response` (managing_agent.py lines
681-773).  Unknown action strings map to CONTINUE (line 699); a SPLIT
without a usable `split_config.branches` degrades to CONTINUE with the
warning (lines 721-726); any parse exception yields `None`. -/
def parse_decision_response (d : DecisionInput) (branch : Branch)
    (context_warning : Option ContextWarning) : Option SplitRecommendation :=
  if d.parse_raises then none
  else if d.action.getD "continue" = "wrap_up" then
    some (SplitRecommendation.make_wrap_up (d.reasoning.getD "No reasoning provided"))
  else if d.action.getD "continue" = "split" then
    match d.split_config with
    | none =>
      some (SplitRecommendation.continue_exploring
        ("Split was recommended but configuration was incomplete: " ++
          d.reasoning.getD "No reasoning provided")
        context_warning)
    | some sc =>
      if sc.branches = [] then
        some (SplitRecommendation.continue_exploring
          ("Split was recommended but configuration was incomplete: " ++
            d.reasoning.getD "No reasoning provided")
          context_warning)
      else
        some { should_split := true, action := .split,
               num_branches := sc.branches.length,
               paper_groups := sc.branches.map (·.paper_ids),
               group_queries := sc.branches.map (fun b => b.query.getD branch.query),
               group_labels := sc.branches.enum.map
                 (fun ib => ib.2.label.getD ("Branch " ++ toString (ib.1 + 1))),
               reasoning := d.reasoning.getD "No reasoning provided",
               context_warning := context_warning }
  else
    some (SplitRecommendation.continue_exploring
      (d.reasoning.getD "No reasoning provided") context_warning)

/-- A tool call in the managing agent's response: either the terminal
`make_branch_decision` call with its input, or one of the two executable
tools (whose execution always yields a string result, managing_agent.py
lines 446-504). -/
inductive MAToolCall
  | decision (d : DecisionInput)
  | cluster_papers (criterion : String)
  | get_branch_context (include_siblings : Bool)
deriving DecidableEq, Repr

/-- One turn of the LLM inside `evaluate_branch` (managing_agent.py lines
356-433).  `raises` models an exception anywhere in the turn (caught by the
outer try at line 442); `tool_use` is a truthy (nonempty) tool-call list;
`end_turn` and `other_stop` are the two falsy-tool-use stop reasons. -/
inductive TurnResponse
  | raises
  | tool_use (head : MAToolCall) (tail : List MAToolCall)
  | end_turn
  | other_stop
deriving DecidableEq, Repr

/-- The first `make_branch_decision` call of a tool-call list, as the
for-loop at managing_agent.py lines 372-382 finds it. -/
def find_decision : List MAToolCall → Option DecisionInput
  | [] => none
  | .decision d :: _ => some d
  | _ :: rest => find_decision rest

/-- The agentic loop of `ManagingAgent.evaluate_branch` (managing_agent.py
lines 350-444), driven by a turn oracle; `turn` is the current turn index
and `fuel` the remaining turns of the `for turn in range(max_turns)` loop.
A raise at any turn is caught by the outer try and yields `None`;
`end_turn` without a decision and exhaustion of the turn budget both
degrade to CONTINUE with the context warning; an unexpected stop reason
breaks out of the loop and reaches the same post-loop CONTINUE. -/
def eval_turns (branch : Branch) (warning : Option ContextWarning)
    (responses : Nat → TurnResponse) : Nat → Nat → Option SplitRecommendation
  | _, 0 =>
    some (SplitRecommendation.continue_exploring
      "Agent reached max turns without decision - defaulting to continue" warning)
  | turn, fuel + 1 =>
    match responses turn with
    | .raises => none
    | .tool_use head tail =>
      match find_decision (head :: tail) with
      | some d => parse_decision_response d branch warning
      | none => eval_turns branch warning responses (turn + 1) fuel
    | .end_turn =>
      some (SplitRecommendation.continue_exploring
        "Agent did not make explicit decision - defaulting to continue" warning)
    | .other_stop =>
      some (SplitRecommendation.continue_exploring
        "Agent reached max turns without decision - defaulting to continue" warning)

/-- `ManagingAgentConfig` (config/loader.py lines 66-72) with defaults. -/
structure ManagingAgentConfig where
  min_papers_before_evaluation : Nat := 5
  evaluation_interval : Nat := 2
deriving DecidableEq, Repr

/-- `ManagingAgent.should_evaluate` (managing_agent.py lines 269-292).
`eval_count` is the branch's entry of the internal evaluation counter.
The interval check compares `len(iterations) - evals * interval` with the
interval over the integers. -/
def should_evaluate (cfg : ManagingAgentConfig) (eval_count : Nat)
    (branch : Branch) (force : Bool) : Bool :=
  if branch.accumulated_papers.length < cfg.min_papers_before_evaluation then false
  else if force then true
  else decide ((cfg.evaluation_interval : Int) ≤
    (branch.iterations.length : Int) - eval_count * cfg.evaluation_interval)

/-- `ManagingAgent.evaluate_branch` (managing_agent.py lines 321-444):
gate on `should_evaluate`, compute the context warning, then run the
agentic loop from turn 0. -/
def evaluate_branch (cfg : ManagingAgentConfig) (eval_count : Nat)
    (branch : Branch) (force : Bool) (responses : Nat → TurnResponse) :
    Option SplitRecommendation :=
  if should_evaluate cfg eval_count branch force then
    eval_turns branch (get_context_status_warning branch) responses 0 5
  else none

/-! ## Master agent (master_agent.py) -/

/-- The auto-management flags of the master agent (master_agent.py lines
126-128; defaults from `MasterAgentConfig`, config/loader.py lines
136-144).  `has_managing_agent` is whether `set_managing_agent` was
called. -/
structure MasterFlags where
  has_managing_agent : Bool := false
  auto_split : Bool := true
  auto_hypothesis : Bool := true
deriving DecidableEq, Repr

/-- `MasterAgent._execute_agent_decision` together with
`_execute_managed_split` (master_agent.py lines 650-718 and 742-820):
CONTINUE is a no-op; SPLIT builds one child per recommendation group (same
copy loop as the branch manager's split) and completes the parent; WRAP_UP
completes the branch. -/
def execute_agent_decision (idGen : Nat → String) (max_ctx : Nat)
    (state : LoopState) (branch_id : String) (rec : SplitRecommendation) :
    LoopState :=
  match state.get_branch branch_id with
  | none => state
  | some branch =>
    match rec.action with
    | .continue_exploration => state
    | .wrap_up => state.update_branch branch_id { branch with status := .completed }
    | .split =>
      let res := split_branch idGen max_ctx branch rec.paper_groups
        rec.group_queries rec.group_labels
      let state := res.1.foldl (fun s c => s.add_branch c) state
      state.update_branch branch_id res.2

/-- `MasterAgent.run_iteration` (master_agent.py lines 243-328) after the
branch lookup, modelled over oracles: `iter_result` is the iteration
loop's result for this call, `consult` is the outcome of
`_consult_managing_agent` (already `None` when the agent raised or was not
eligible), and `hyp_result` is the extra iteration run by the
auto-hypothesis step.  The branch is unconditionally set RUNNING and the
result appended.  The `elif self.auto_split` arm calls
`self.branch_manager.get_context_warning(branch)` (line 306), a method
`BranchManager` does not define, so reaching it raises `AttributeError`.
After auto-management, the auto-hypothesis arm (lines 314-323) switches the
mode and appends one more iteration whenever
`should_enable_hypothesis_mode` holds — regardless of the status the
branch just received. -/
def master_run_iteration (flags : MasterFlags) (cfg : BranchConfig)
    (idGen : Nat → String) (state : LoopState) (branch_id : String)
    (iter_result : IterationResult) (consult : Option SplitRecommendation)
    (hyp_result : IterationResult) :
    Except String (LoopState × IterationResult) :=
  match state.get_branch branch_id with
  | none => .error ("ValueError: Branch not found: " ++ branch_id)
  | some branch =>
    let branch := { branch with status := .running }
    let branch := branch.add_iteration iter_result
    let state := state.update_branch branch_id branch
    match
      (if flags.has_managing_agent then
        match consult with
        | some rec =>
          Except.ok (execute_agent_decision idGen cfg.max_context_window state branch_id rec)
        | none => Except.ok state
      else if flags.auto_split then
        Except.error "AttributeError: 'BranchManager' object has no attribute 'get_context_warning'"
      else Except.ok state : Except String LoopState) with
    | .error e => .error e
    | .ok state =>
      let state :=
        match state.get_branch branch_id with
        | none => state
        | some b =>
          if flags.auto_hypothesis ∧ should_enable_hypothesis_mode cfg b then
            state.update_branch branch_id
              (Branch.add_iteration { b with mode := .hypothesis } hyp_result)
          else state
      .ok (state, iter_result)

/-- The state after the decision-execution stage of `run_iteration` (up to
master_agent.py line 303), before the auto-hypothesis step — the
intermediate point at which a WRAP_UP or SPLIT has already completed the
branch. -/
def master_run_iteration_mid (flags : MasterFlags) (cfg : BranchConfig)
    (idGen : Nat → String) (state : LoopState) (branch_id : String)
    (iter_result : IterationResult) (consult : Option SplitRecommendation) :
    Option LoopState :=
  match state.get_branch branch_id with
  | none => none
  | some branch =>
    let branch := { branch with status := .running }
    let branch := branch.add_iteration iter_result
    let state := state.update_branch branch_id branch
    if flags.has_managing_agent then
      match consult with
      | some rec => some (execute_agent_decision idGen cfg.max_context_window state branch_id rec)
      | none => some state
    else some state

/-! ## Automatic scheduler (master_agent.py `run_auto`, lines 526-617) -/

/-- The parameters of `run_auto` with their defaults. -/
structure AutoParams where
  max_iterations : Nat := 10
  stop_on_hypotheses : Nat := 0
  max_consecutive_empty : Nat := 3
deriving DecidableEq, Repr

/-- `MasterAgent.prune_branch` as it acts on the state (master_agent.py
lines 465-485 with branch_manager.py lines 163-178): set the branch's
status to PRUNED.  The reason is only logged in the source; `run_auto_loop`
records it in its log output. -/
def prune_branch_state (state : LoopState) (id : String) : LoopState :=
  match state.get_branch id with
  | none => state
  | some b => state.update_branch id (prune_branch b)

/-- The final PENDING → PAUSED sweep of `run_auto` (master_agent.py lines
610-613). -/
def finish_auto (state : LoopState) : LoopState :=
  { state with
    branches := state.branches.map
      (fun kv => if kv.2.status = .pending then (kv.1, { kv.2 with status := .paused }) else kv) }

/-- The hypothesis stopping condition of `run_auto` (master_agent.py lines
600-608), checked after every loop pass. -/
def stop_check (params : AutoParams) (state : LoopState) : Bool :=
  decide (0 < params.stop_on_hypotheses ∧
    params.stop_on_hypotheses ≤ state.collect_all_hypotheses.length)

/-- The `while` loop of `MasterAgent.run_auto` (master_agent.py lines
552-608).  `run_iter` abstracts `self.run_iteration(branch.id)`: it either
raises (`error`) or returns the updated state and the iteration's result.
On an error the branch is pruned with reason `"Error: " ++ e` (recorded in
the returned log) and the loop continues without counting the iteration;
on success the stall counter is updated and a stalled branch is marked
COMPLETED.  `fuel` bounds the number of loop passes (the source loop
terminates because successes are bounded by `max_iterations` and every
error removes a selectable branch). -/
def run_auto_loop
    (run_iter : LoopState → String → Except String (LoopState × IterationResult))
    (params : AutoParams) :
    Nat → LoopState → Nat → List (String × Nat) → List (String × String) →
    LoopState × List (String × String)
  | 0, state, _, _, log => (finish_auto state, log)
  | fuel + 1, state, total, counts, log =>
    if params.max_iterations ≤ total then (finish_auto state, log)
    else
      match get_next_branch state with
      | none => (finish_auto state, log)
      | some branch =>
        match run_iter state branch.id with
        | .error e =>
          let state := prune_branch_state state branch.id
          let log := log ++ [(branch.id, "Error: " ++ e)]
          if stop_check params state then (finish_auto state, log)
          else run_auto_loop run_iter params fuel state total counts log
        | .ok st =>
          let state := st.1
          let total := total + 1
          let pair :=
            if st.2.papers_found = [] then
              let c := (dict_get counts branch.id).getD 0 + 1
              let state :=
                if params.max_consecutive_empty ≤ c then
                  match state.get_branch branch.id with
                  | none => state
                  | some b => state.update_branch branch.id { b with status := .completed }
                else state
              (state, dict_insert counts branch.id c)
            else (state, dict_insert counts branch.id 0)
          if stop_check params pair.1 then (finish_auto pair.1, log)
          else run_auto_loop run_iter params fuel pair.1 total pair.2 log

/-- `MasterAgent.run_auto` from a fresh loop entry. -/
def run_auto
    (run_iter : LoopState → String → Except String (LoopState × IterationResult))
    (params : AutoParams) (fuel : Nat) (state : LoopState) :
    LoopState × List (String × String) :=
  run_auto_loop run_iter params fuel state 0 [] []

/-! ## Iteration loop (iteration_loop.py) -/

/-- `IterationLoopConfig` (config/loader.py lines 47-54) together with the
inner loop's `max_papers_per_iteration` that `_get_related_papers` reads
from `self.inner_loop.max_papers` (iteration_loop.py line 219). -/
structure IterationConfig where
  max_citations_per_paper : Nat := 5
  max_references_per_paper : Nat := 5
  include_references : Bool := true
  max_papers_per_iteration : Nat := 20
deriving DecidableEq, Repr

/-- A paper's `citation_count or 0` (iteration_loop.py line 222). -/
def cit_count (p : PaperDetails) : Nat :=
  p.citation_count.getD 0

/-- The ordering used by iteration_loop.py line 222
(`papers.sort(key=lambda p: p.citation_count or 0, reverse=True)`):
`p` may come before `q` when its citation count is at least `q`'s.  The
Python sort is stable; so is `List.mergeSort`. -/
def by_citations_desc (p q : PaperDetails) : Bool :=
  decide (cit_count q ≤ cit_count p)

/-- The `all_papers` dict of `IterationLoop._get_related_papers`
(iteration_loop.py lines 187-214): fold the fetched citing papers, then
(when configured) the referenced papers, into an insertion-ordered dict,
skipping every excluded id. -/
def related_merged (cfg : IterationConfig)
    (citations references : List PaperDetails) (exclude_ids : List String) :
    List (String × PaperDetails) :=
  let all := citations.foldl
    (fun acc p => if exclude_ids.contains p.paper_id then acc
                  else dict_insert acc p.paper_id p) []
  if cfg.include_references then
    references.foldl
      (fun acc p => if exclude_ids.contains p.paper_id then acc
                    else dict_insert acc p.paper_id p) all
  else all

/-- `IterationLoop._get_related_papers` (iteration_loop.py lines 172-228):
merge, then when more than `max_papers_per_iteration` papers remain,
stable-sort by citation count descending and truncate. -/
def get_related_papers (cfg : IterationConfig)
    (citations references : List PaperDetails) (exclude_ids : List String) :
    List PaperDetails :=
  let papers := (related_merged cfg citations references exclude_ids).map (·.2)
  if cfg.max_papers_per_iteration < papers.length then
    (papers.mergeSort by_citations_desc).take cfg.max_papers_per_iteration
  else papers

/-- The previous iteration's paper ids
(`[p.paper_id for p in previous_iteration.papers_found]`,
iteration_loop.py lines 104-105). -/
def previous_iteration_ids (branch : Branch) : List String :=
  match branch.iterations.getLast? with
  | some it => it.papers_found.map (·.paper_id)
  | none => []

/-- The frontier a subsequent iteration works on (iteration_loop.py lines
104-111): related papers of the previous iteration's ids, requested with
the configured per-paper caps, excluding everything already accumulated. -/
def iteration_frontier (cfg : IterationConfig) (branch : Branch)
    (citations_batch references_batch : List String → Nat → List PaperDetails) :
    List PaperDetails :=
  get_related_papers cfg
    (citations_batch (previous_iteration_ids branch) cfg.max_citations_per_paper)
    (references_batch (previous_iteration_ids branch) cfg.max_references_per_paper)
    (dict_keys branch.accumulated_papers)

/-- The non-empty-frontier tail of the subsequent-iteration arm
(iteration_loop.py lines 124-161): fetch details for the frontier (`none`
models the fetch raising, in which case the basic records are kept),
summarize, optionally generate hypotheses, and estimate tokens. -/
def run_iteration_nonempty (iteration_num : Nat) (generate_hypotheses : Bool)
    (frontier : List PaperDetails)
    (fetch : List String → Option (List PaperDetails))
    (summarize : List PaperDetails → List ValidatedSummary)
    (hyp_gen : List ValidatedSummary → List ResearchHypothesis)
    (estimate : List PaperDetails → List ValidatedSummary → Nat) : IterationResult :=
  let papers := match fetch (frontier.map (·.paper_id)) with
    | some ps => ps
    | none => frontier
  let summaries := summarize papers
  let hypotheses := if generate_hypotheses ∧ summaries ≠ [] then
      some (hyp_gen summaries)
    else none
  { iteration_number := iteration_num, papers_found := papers,
    summaries := summaries, hypotheses := hypotheses,
    context_tokens_used := estimate papers summaries }

/-- The subsequent-iteration arm of `IterationLoop.run_iteration`
(iteration_loop.py lines 102-170, the `iteration_num ≥ 2` path).  The
citation and reference batch fetches are oracles applied to the previous
iteration's paper ids and the configured per-paper caps; `fetch` models the
detail fetch (`none` = the fetch raised, keeping the basic records);
`summarize` and `hyp_gen` model the summarization fan-out and hypothesis
generation; `estimate` models the token estimator.  An empty frontier
returns the empty result with zero tokens. -/
def run_iteration_subsequent (cfg : IterationConfig) (branch : Branch)
    (citations_batch : List String → Nat → List PaperDetails)
    (references_batch : List String → Nat → List PaperDetails)
    (fetch : List String → Option (List PaperDetails))
    (summarize : List PaperDetails → List ValidatedSummary)
    (hyp_gen : List ValidatedSummary → List ResearchHypothesis)
    (estimate : List PaperDetails → List ValidatedSummary → Nat) :
    IterationResult :=
  let iteration_num := branch.iterations.length + 1
  let generate_hypotheses := branch.mode = .hypothesis
  let frontier := iteration_frontier cfg branch citations_batch references_batch
  if frontier = [] then
    { iteration_number := iteration_num, papers_found := [], summaries := [],
      hypotheses := if generate_hypotheses then some [] else none,
      context_tokens_used := 0 }
  else
    run_iteration_nonempty iteration_num (decide generate_hypotheses) frontier
      fetch summarize hyp_gen estimate

/-! ## Inner loop: agent paper selection (inner_loop.py lines 171-305) -/

/-- The bounds-checked 0-indexing of the decoded `selected_papers` items
(inner_loop.py lines 192-201): each item is `some v` for a dict carrying
an integer `index` or a bare integer `v` (other shapes are skipped); keep
`v - 1` when `0 ≤ v - 1 < max_papers`.  Python integers are unbounded, so
`v` ranges over `Int`. -/
def json_indices (items : List (Option Int)) (max_papers : Nat) : List Nat :=
  items.filterMap (fun it => it.bind (fun v =>
    if 0 ≤ v - 1 ∧ v - 1 < (max_papers : Int) then some (v - 1).toNat else none))

/-- The bounds-checked 0-indexing of the fallback regex numbers
(inner_loop.py line 215): keep `n - 1` when `0 < n ≤ max_papers`. -/
def fallback_indices (numbers : List Nat) (max_papers : Nat) : List Nat :=
  numbers.filterMap (fun n => if 0 < n ∧ n ≤ max_papers then some (n - 1) else none)

/-- `InnerLoop._parse_selection_response` (inner_loop.py lines 171-222)
with the regex engine and JSON decoder as oracles.  `json_items` is the
decoded `selected_papers` array of a fenced JSON block (`none` when there
is no block, decoding fails, or the key is missing); `fallback_numbers`
are the digit groups the fallback regex finds.  The source's
`list(set(indices))` has unspecified order; it is modelled as
deduplication keeping first occurrences.  `cfg_max_papers` is
`self.max_papers`; `max_papers` is the bound argument (the candidate count
at the only call site). -/
def parse_selection_response (cfg_max_papers : Nat)
    (json_items : Option (List (Option Int))) (fallback_numbers : List Nat)
    (max_papers : Nat) : List Nat :=
  let from_json : List Nat :=
    match json_items with
    | none => []
    | some items => json_indices items max_papers
  if from_json ≠ [] then from_json
  else
    let fb := fallback_indices fallback_numbers max_papers
    if fb ≠ [] then fb.dedup
    else List.range (min max_papers cfg_max_papers)

/-- The index selection of `InnerLoop._agent_select_papers` (inner_loop.py
lines 278-294): parse with bound `len(papers)`; when fewer than 3 indices
were parsed, replace them with `range(min(self.max_papers, len(papers)))`;
finally cap at `self.max_papers`. -/
def agent_select_indices (cfg_max_papers : Nat) (n : Nat)
    (json_items : Option (List (Option Int))) (fallback_numbers : List Nat) :
    List Nat :=
  let selected := parse_selection_response cfg_max_papers json_items fallback_numbers n
  let selected := if selected.length < 3 then List.range (min cfg_max_papers n)
    else selected
  if cfg_max_papers < selected.length then selected.take cfg_max_papers
  else selected

/-- `InnerLoop._agent_select_papers` (inner_loop.py lines 224-305) on a
successful LLM call: when the candidate list is within the working limit,
selection is skipped; otherwise the comprehension `[papers[i] for i in
selected_indices]` is modelled with `get?`, so an out-of-bounds index (an
`IndexError`) surfaces as `none`. -/
def agent_select_papers (cfg_max_papers : Nat) (papers : List PaperDetails)
    (json_items : Option (List (Option Int))) (fallback_numbers : List Nat) :
    Option (List PaperDetails) :=
  if papers.length ≤ cfg_max_papers then some papers
  else
    (agent_select_indices cfg_max_papers papers.length json_items fallback_numbers).mapM
      (fun i => papers.get? i)

/-! ## Concrete fixtures for witnesses and counterexamples -/

/-- A minimal paper record with a synthetic id. -/
def mk_paper (i : Nat) : PaperDetails :=
  { paper_id := "p" ++ toString i }

/-- Thirty candidate papers — more than the default working limit of 20,
so agent selection runs. -/
def sample_papers : List PaperDetails :=
  (List.range 30).map mk_paper

/-- A paper carrying only an abstract. -/
def sample_paper : PaperDetails :=
  { paper_id := "pa", abstract := some "some text" }

/-- A paper with neither full text nor abstract. -/
def empty_paper : PaperDetails :=
  { paper_id := "pe" }

/-- An iteration result with no papers, summaries or tokens. -/
def empty_iteration (n : Nat) : IterationResult :=
  { iteration_number := n, papers_found := [], summaries := [],
    hypotheses := none, context_tokens_used := 0 }

/-- A branch configuration whose hypothesis-mode threshold is two papers. -/
def sample_cfg : BranchConfig :=
  { min_papers_for_hypothesis_mode := 2, max_context_window := 100 }

/-- A parent branch holding two accumulated papers. -/
def sample_parent : Branch :=
  { id := "par", query := "q", mode := .search_summarize, status := .running,
    accumulated_papers := [("p1", mk_paper 1), ("p2", mk_paper 2)],
    max_context_window := 100 }

/-- A running branch with one finished iteration and two accumulated
papers. -/
def sample_branch_b : Branch :=
  { id := "b", query := "q", mode := .search_summarize, status := .running,
    iterations := [empty_iteration 1],
    accumulated_papers := [("p1", mk_paper 1), ("p2", mk_paper 2)],
    max_context_window := 100 }

/-- A one-branch loop state around `sample_branch_b`. -/
def sample_state : LoopState :=
  { loop_id := "L", loop_number := 1, branches := [("b", sample_branch_b)] }

/-- Master flags with a managing agent configured. -/
def sample_flags_agent : MasterFlags :=
  { has_managing_agent := true, auto_split := true, auto_hypothesis := true }

/-- Default master flags: no managing agent, auto-split and auto-hypothesis
enabled. -/
def sample_flags_plain : MasterFlags :=
  { has_managing_agent := false, auto_split := true, auto_hypothesis := true }

/-- A deterministic stand-in for the uuid-based child-id generator. -/
def sample_idgen (i : Nat) : String :=
  "c" ++ toString i

/-- A pending branch `b1`. -/
def sample_b1 : Branch :=
  { id := "b1", query := "q1", mode := .search_summarize, status := .pending,
    max_context_window := 100 }

/-- A pending branch `b2`. -/
def sample_b2 : Branch :=
  { id := "b2", query := "q2", mode := .search_summarize, status := .pending,
    max_context_window := 100 }

/-- A loop state with two pending branches. -/
def sample_state2 : LoopState :=
  { loop_id := "L2", loop_number := 1,
    branches := [("b1", sample_b1), ("b2", sample_b2)] }

/-- A run-iteration oracle that raises on branch `b1` and succeeds without
changing the state elsewhere. -/
def sample_run_iter (s : LoopState) (id : String) :
    Except String (LoopState × IterationResult) :=
  if id = "b1" then .error "boom" else .ok (s, empty_iteration 1)

/-- A branch with five accumulated papers — eligible for managing-agent
evaluation under the default configuration. -/
def sample_branch_eval : Branch :=
  { id := "be", query := "q", mode := .search_summarize, status := .running,
    accumulated_papers := (List.range 5).map (fun i => ("p" ++ toString i, mk_paper i)),
    max_context_window := 100 }

/-! # Helper lemmas -/

theorem dict_mem_iff {α : Type} (l : List (String × α)) (k : String) :
    dict_mem l k = true ↔ ∃ kv ∈ l, kv.1 = k := by
  simp [dict_mem, List.any_eq_true]

theorem mem_dict_insert {α : Type} {l : List (String × α)} {k : String} {v : α}
    {kv : String × α} (h : kv ∈ dict_insert l k v) : kv = (k, v) ∨ kv ∈ l := by
  unfold dict_insert at h
  by_cases hm : dict_mem l k
  · rw [if_pos hm] at h
    rcases List.mem_map.mp h with ⟨kv0, h0, heq⟩
    by_cases hk : kv0.1 = k
    · left; rw [if_pos hk] at heq; exact heq.symm
    · right; rw [if_neg hk] at heq; exact heq ▸ h0
  · rw [if_neg hm] at h
    rcases List.mem_append.mp h with h1 | h1
    · right; exact h1
    · left; simpa using h1

theorem dict_mem_insert_iff {α : Type} (l : List (String × α)) (k k' : String) (v : α) :
    dict_mem (dict_insert l k v) k' = true ↔ k' = k ∨ dict_mem l k' = true := by
  constructor
  · intro h
    rcases (dict_mem_iff _ _).mp h with ⟨kv, hkv, hk⟩
    rcases mem_dict_insert hkv with h1 | h1
    · left; rw [h1] at hk; simpa using hk.symm
    · right; exact (dict_mem_iff _ _).mpr ⟨kv, h1, hk⟩
  · intro h
    unfold dict_insert
    by_cases hm : dict_mem l k
    · rw [if_pos hm]
      rcases h with h | h
      · rcases (dict_mem_iff _ _).mp hm with ⟨kv0, h0, hk0⟩
        refine (dict_mem_iff _ _).mpr ⟨(k, v), List.mem_map.mpr ⟨kv0, h0, ?_⟩, h.symm⟩
        rw [if_pos hk0]
      · rcases (dict_mem_iff _ _).mp h with ⟨kv0, h0, hk0⟩
        by_cases hk : kv0.1 = k
        · refine (dict_mem_iff _ _).mpr ⟨(k, v), List.mem_map.mpr ⟨kv0, h0, ?_⟩, ?_⟩
          · rw [if_pos hk]
          · show k = k'
            rw [← hk, hk0]
        · refine (dict_mem_iff _ _).mpr ⟨kv0, List.mem_map.mpr ⟨kv0, h0, ?_⟩, hk0⟩
          rw [if_neg hk]
    · rw [if_neg hm]
      rcases h with h | h
      · exact (dict_mem_iff _ _).mpr ⟨(k, v), List.mem_append.mpr (Or.inr (by simp)), h.symm⟩
      · rcases (dict_mem_iff _ _).mp h with ⟨kv0, h0, hk0⟩
        exact (dict_mem_iff _ _).mpr ⟨kv0, List.mem_append.mpr (Or.inl h0), hk0⟩

theorem json_indices_lt (items : List (Option Int)) (m : Nat) :
    ∀ i ∈ json_indices items m, i < m := by
  intro i hi
  rcases List.mem_filterMap.mp hi with ⟨it, _, hit⟩
  rcases Option.bind_eq_some.mp hit with ⟨v, _, hv⟩
  by_cases hc : 0 ≤ v - 1 ∧ v - 1 < (m : Int)
  · rw [if_pos hc] at hv
    obtain ⟨hc0, hcm⟩ := hc
    have := Option.some.inj hv
    omega
  · rw [if_neg hc] at hv
    exact absurd hv (by simp)

theorem fallback_indices_lt (numbers : List Nat) (m : Nat) :
    ∀ i ∈ fallback_indices numbers m, i < m := by
  intro i hi
  rcases List.mem_filterMap.mp hi with ⟨x, _, hx⟩
  by_cases hc : 0 < x ∧ x ≤ m
  · rw [if_pos hc] at hx
    have := Option.some.inj hx
    omega
  · rw [if_neg hc] at hx
    exact absurd hx (by simp)

theorem parse_selection_lt (cfg_max : Nat) (ji : Option (List (Option Int)))
    (fb : List Nat) (n : Nat) :
    ∀ i ∈ parse_selection_response cfg_max ji fb n, i < n := by
  have hcore : ∀ fj : List Nat, (∀ j ∈ fj, j < n) → ∀ i,
      i ∈ (if fj ≠ [] then fj
           else if fallback_indices fb n ≠ [] then (fallback_indices fb n).dedup
           else List.range (min n cfg_max)) → i < n := by
    intro fj hfj i hmem
    split at hmem
    · exact hfj i hmem
    · split at hmem
      · exact fallback_indices_lt fb n i (List.mem_dedup.mp hmem)
      · have := List.mem_range.mp hmem
        omega
  intro i hi
  rcases ji with _ | items
  · exact hcore [] (by simp) i hi
  · exact hcore (json_indices items n) (json_indices_lt items n) i hi

theorem agent_select_indices_lt (cfg_max n : Nat) (ji : Option (List (Option Int)))
    (fb : List Nat) :
    ∀ i ∈ agent_select_indices cfg_max n ji fb, i < n := by
  intro i hi
  have hi2 : i ∈ (if cfg_max < (if (parse_selection_response cfg_max ji fb n).length < 3 then
      List.range (min cfg_max n) else parse_selection_response cfg_max ji fb n).length then
        (if (parse_selection_response cfg_max ji fb n).length < 3 then
          List.range (min cfg_max n) else parse_selection_response cfg_max ji fb n).take cfg_max
      else (if (parse_selection_response cfg_max ji fb n).length < 3 then
        List.range (min cfg_max n) else parse_selection_response cfg_max ji fb n)) := hi
  by_cases h3 : (parse_selection_response cfg_max ji fb n).length < 3
  · rw [if_pos h3] at hi2
    split at hi2
    · have := List.mem_range.mp ((List.take_sublist _ _).mem hi2)
      omega
    · have := List.mem_range.mp hi2
      omega
  · rw [if_neg h3] at hi2
    split at hi2
    · exact parse_selection_lt cfg_max ji fb n i ((List.take_sublist _ _).mem hi2)
    · exact parse_selection_lt cfg_max ji fb n i hi2

theorem mapM_get_of_lt (papers : List PaperDetails) :
    ∀ l : List Nat, (∀ i ∈ l, i < papers.length) →
      ∃ ps, l.mapM (fun i => papers.get? i) = some ps ∧ ps.length = l.length := by
  intro l
  induction l with
  | nil => intro _; exact ⟨[], rfl, rfl⟩
  | cons a l ih =>
    intro h
    obtain ⟨ps, hps, hlen⟩ := ih (fun i hi => h i (List.mem_cons_of_mem _ hi))
    have ha : a < papers.length := h a (List.mem_cons_self _ _)
    refine ⟨papers.get ⟨a, ha⟩ :: ps, ?_, by simp [hlen]⟩
    rw [List.mapM_cons, List.get?_eq_get ha, hps]
    rfl

/-! # Claim theorems -/

/-- C10: constructing a `ValidatedSummary` raises `ValueError` exactly when
groundedness is negative; any groundedness ≥ 0, including values above 1,
is accepted unchanged (the [0,1] range is not enforced). -/
theorem claim_C10 (pid t s : String) (g : ℚ) :
    ((∃ e, ValidatedSummary.make pid t s g = .error e) ↔ g < 0) ∧
    (0 ≤ g → ValidatedSummary.make pid t s g = .ok ⟨pid, t, s, g⟩) := by
  unfold ValidatedSummary.make
  refine ⟨⟨?_, ?_⟩, ?_⟩
  · rintro ⟨e, he⟩
    by_contra hg
    rw [if_neg hg] at he
    exact absurd he (by simp)
  · intro hg
    exact ⟨_, if_pos hg⟩
  · intro hg
    rw [if_neg (not_lt.mpr hg)]

/-- Witness for C10 at groundedness 3/2, a value strictly above 1. -/
theorem claim_C10_witness :
    ValidatedSummary.make "p" "t" "s" (3/2) = .ok ⟨"p", "t", "s", 3/2⟩ ∧
    ¬∃ e, ValidatedSummary.make "p" "t" "s" (3/2) = .error e := by
  refine ⟨(claim_C10 "p" "t" "s" (3/2)).2 (by norm_num), fun h => ?_⟩
  exact absurd ((claim_C10 "p" "t" "s" (3/2)).1.mp h) (by norm_num)

/-- C7 (code bug): `BranchManager` defines no `get_context_warning`, yet
master_agent.py line 306 calls it, so with the default flags (auto-split
on, no managing agent) `run_iteration` raises `AttributeError`.  The
remaining conjuncts prove that the operation modelled from the spec has
exactly the documented tiers: a warning iff utilization ≥ 0.70, critical
at ≥ 0.90, high at ≥ 0.80, moderate at ≥ 0.70. -/
theorem claim_C7 :
    (master_run_iteration sample_flags_plain sample_cfg sample_idgen sample_state "b"
        (empty_iteration 2) none (empty_iteration 3) =
      .error "AttributeError: 'BranchManager' object has no attribute 'get_context_warning'") ∧
    (∀ b : Branch, (get_context_warning b).isSome = true ↔ 7/10 ≤ b.context_utilization) ∧
    (∀ b : Branch, get_context_warning b = some .critical ↔ 9/10 ≤ b.context_utilization) ∧
    (∀ b : Branch, get_context_warning b = some .high ↔
      (4/5 ≤ b.context_utilization ∧ ¬ 9/10 ≤ b.context_utilization)) ∧
    (∀ b : Branch, get_context_warning b = some .moderate ↔
      (7/10 ≤ b.context_utilization ∧ ¬ 4/5 ≤ b.context_utilization)) := by
  refine ⟨by rfl, ?_, ?_, ?_, ?_⟩ <;> intro b <;> unfold get_context_warning
  · split_ifs with h1 h2 h3
    · exact ⟨fun _ => by linarith, fun _ => rfl⟩
    · exact ⟨fun _ => by linarith, fun _ => rfl⟩
    · exact ⟨fun _ => h3, fun _ => rfl⟩
    · exact ⟨fun h => absurd h (by decide), fun hh => absurd hh h3⟩
  · split_ifs with h1 h2 h3
    · exact ⟨fun _ => h1, fun _ => rfl⟩
    · exact ⟨fun h => absurd h (by decide), fun hc => absurd hc h1⟩
    · exact ⟨fun h => absurd h (by decide), fun hc => absurd hc h1⟩
    · exact ⟨fun h => absurd h (by decide), fun hc => absurd hc h1⟩
  · split_ifs with h1 h2 h3
    · exact ⟨fun h => absurd h (by decide), fun hb => absurd h1 hb.2⟩
    · exact ⟨fun _ => ⟨h2, h1⟩, fun _ => rfl⟩
    · exact ⟨fun h => absurd h (by decide), fun hb => absurd hb.1 h2⟩
    · exact ⟨fun h => absurd h (by decide), fun hb => absurd hb.1 h2⟩
  · split_ifs with h1 h2 h3
    · refine ⟨fun h => absurd h (by decide), fun hb => absurd ?_ hb.2⟩
      have : (4:ℚ)/5 ≤ 9/10 := by norm_num
      linarith
    · exact ⟨fun h => absurd h (by decide), fun hb => absurd h2 hb.2⟩
    · exact ⟨fun _ => ⟨h3, h2⟩, fun _ => rfl⟩
    · exact ⟨fun h => absurd h (by decide), fun hb => absurd hb.1 h3⟩

/-- C9: every parse path of `_parse_selection_response` bounds-checks its
indices against the candidate count, so the indexing `papers[i]` in
`_agent_select_papers` is always in bounds and never raises
`IndexError`. -/
theorem claim_C9 :
    (∀ (cfg_max : Nat) ji fb (n : Nat), ∀ i ∈ parse_selection_response cfg_max ji fb n, i < n) ∧
    (∀ (cfg_max n : Nat) ji fb, ∀ i ∈ agent_select_indices cfg_max n ji fb, i < n) ∧
    (∀ (cfg_max : Nat) (papers : List PaperDetails) ji fb,
      ∃ ps, agent_select_papers cfg_max papers ji fb = some ps) := by
  refine ⟨parse_selection_lt, agent_select_indices_lt, ?_⟩
  intro cfg_max papers ji fb
  unfold agent_select_papers
  split
  · exact ⟨papers, rfl⟩
  · obtain ⟨ps, hps, -⟩ := mapM_get_of_lt papers _
      (agent_select_indices_lt cfg_max papers.length ji fb)
    exact ⟨ps, hps⟩

/-- Witness for C9: index 4 parsed from fallback number 5 among 5
candidates is in bounds, and a concrete 30-candidate selection returns
without an `IndexError`. -/
theorem claim_C9_witness :
    (4 : Nat) < 5 ∧ ∃ ps, agent_select_papers 3 sample_papers none [5] = some ps :=
  ⟨claim_C9.1 3 none [5] 5 4 (by decide), claim_C9.2.2 3 sample_papers none [5]⟩

/-- C6 counterexample: 30 candidates, working limit 10, free text
mentioning only paper 15.  The parser extracts the single valid index 14;
having fewer than 3 indices, the selector then discards it and takes the
first ten candidates — the extracted index is not padded but dropped,
contrary to the claim. -/
theorem claim_C6_counterexample :
    parse_selection_response 10 none [15] 30 = [14] ∧
    (parse_selection_response 10 none [15] 30).length < 3 ∧
    14 ∉ agent_select_indices 10 30 none [15] := by decide

/-- C6 amended: when parsing yields fewer than 3 valid indices, the
selector replaces them with the first `min(max_papers_per_iteration, n)`
candidate indices, discarding the extracted ones; at least 3 papers result
whenever that minimum is at least 3, and the selection proceeds without
raising. -/
theorem claim_C6_amended (cfg_max n : Nat) (ji : Option (List (Option Int)))
    (fb : List Nat) (h : (parse_selection_response cfg_max ji fb n).length < 3) :
    agent_select_indices cfg_max n ji fb = List.range (min cfg_max n) ∧
    (3 ≤ min cfg_max n → 3 ≤ (agent_select_indices cfg_max n ji fb).length) ∧
    (∀ papers : List PaperDetails, papers.length = n →
      ∃ ps, agent_select_papers cfg_max papers ji fb = some ps) := by
  have heq : agent_select_indices cfg_max n ji fb = List.range (min cfg_max n) := by
    show (if cfg_max < (if (parse_selection_response cfg_max ji fb n).length < 3 then
        List.range (min cfg_max n) else parse_selection_response cfg_max ji fb n).length then
          (if (parse_selection_response cfg_max ji fb n).length < 3 then
            List.range (min cfg_max n) else parse_selection_response cfg_max ji fb n).take cfg_max
        else (if (parse_selection_response cfg_max ji fb n).length < 3 then
          List.range (min cfg_max n) else parse_selection_response cfg_max ji fb n)) =
      List.range (min cfg_max n)
    rw [if_pos h, if_neg]
    rw [List.length_range]
    exact not_lt.mpr (min_le_left _ _)
  refine ⟨heq, ?_, ?_⟩
  · intro h3
    rw [heq, List.length_range]
    exact h3
  · intro papers hlen
    unfold agent_select_papers
    split
    · exact ⟨papers, rfl⟩
    · obtain ⟨ps, hps, -⟩ := mapM_get_of_lt papers _
        (fun i hi => hlen ▸ agent_select_indices_lt cfg_max papers.length ji fb i hi)
      exact ⟨ps, hps⟩

/-- Witness for the amended C6 at the counterexample's input. -/
theorem claim_C6_witness :
    agent_select_indices 10 30 none [15] = List.range 10 ∧
    3 ≤ (agent_select_indices 10 30 none [15]).length ∧
    ∃ ps, agent_select_papers 10 sample_papers none [15] = some ps := by
  obtain ⟨h1, h2, h3⟩ := claim_C6_amended 10 30 none [15] (by decide)
  exact ⟨by simpa using h1, h2 (by decide), h3 sample_papers (by decide)⟩

theorem sv_loop_some_accept {thr : ℚ} (paper : PaperDetails) {o : AttemptOutcome}
    (rest : List (Option AttemptOutcome)) (bs : Option String) (bg : ℚ)
    (h1 : thr ≤ o.groundedness) (h2 : o.nli_contradictions = 0) :
    sv_loop thr paper (some o :: rest) bs bg =
      some ⟨paper.paper_id, pyOr paper.title "Unknown", o.summary, o.groundedness⟩ := by
  show (if thr ≤ o.groundedness ∧ o.nli_contradictions = 0 then
      some ⟨paper.paper_id, pyOr paper.title "Unknown", o.summary, o.groundedness⟩
    else sv_loop thr paper rest
      (if bg < o.groundedness then some o.summary else bs)
      (if bg < o.groundedness then o.groundedness else bg)) = _
  exact if_pos ⟨h1, h2⟩

theorem sv_loop_some_reject {thr : ℚ} (paper : PaperDetails) {o : AttemptOutcome}
    (rest : List (Option AttemptOutcome)) (bs : Option String) (bg : ℚ)
    (h : ¬(thr ≤ o.groundedness ∧ o.nli_contradictions = 0)) :
    sv_loop thr paper (some o :: rest) bs bg =
      sv_loop thr paper rest
        (if bg < o.groundedness then some o.summary else bs)
        (if bg < o.groundedness then o.groundedness else bg) := by
  show (if thr ≤ o.groundedness ∧ o.nli_contradictions = 0 then
      some ⟨paper.paper_id, pyOr paper.title "Unknown", o.summary, o.groundedness⟩
    else sv_loop thr paper rest
      (if bg < o.groundedness then some o.summary else bs)
      (if bg < o.groundedness then o.groundedness else bg)) = _
  exact if_neg h

theorem strict_accept_false {thr : ℚ} {o : AttemptOutcome}
    (h : strict_accept thr (some o) = false) :
    ¬(thr ≤ o.groundedness ∧ o.nli_contradictions = 0) := by
  simpa [strict_accept] using h

theorem sv_loop_no_accept (thr : ℚ) (paper : PaperDetails) :
    ∀ (l : List (Option AttemptOutcome)) (bs : Option String) (bg : ℚ),
      (∀ a ∈ l, strict_accept thr a = false) →
      sv_loop thr paper l bs bg =
        (if pyTruthy (best_fold l bs bg).1 ∧ 7/10 ≤ (best_fold l bs bg).2 then
          some ⟨paper.paper_id, pyOr paper.title "Unknown",
            (best_fold l bs bg).1.getD "", (best_fold l bs bg).2⟩
        else none) := by
  intro l
  induction l with
  | nil => intro bs bg _; rfl
  | cons a rest ih =>
    intro bs bg h
    rcases a with _ | o
    · exact ih bs bg (fun x hx => h x (List.mem_cons_of_mem _ hx))
    · have hrej := strict_accept_false (h (some o) (List.mem_cons_self _ _))
      rw [sv_loop_some_reject paper rest bs bg hrej]
      exact ih _ _ (fun x hx => h x (List.mem_cons_of_mem _ hx))

theorem sv_loop_ge {thr : ℚ} (paper : PaperDetails) (h7 : 7/10 ≤ thr) :
    ∀ (l : List (Option AttemptOutcome)) (bs : Option String) (bg : ℚ)
      (vs : ValidatedSummary),
      sv_loop thr paper l bs bg = some vs → 7/10 ≤ vs.groundedness := by
  intro l
  induction l with
  | nil =>
    intro bs bg vs h
    by_cases hp : pyTruthy bs ∧ 7/10 ≤ bg
    · have : some (⟨paper.paper_id, pyOr paper.title "Unknown", bs.getD "", bg⟩ :
          ValidatedSummary) = some vs := by
        rw [← h]
        show _ = (if pyTruthy bs ∧ 7/10 ≤ bg then _ else none)
        rw [if_pos hp]
      have hvs := Option.some.inj this
      rw [← hvs]
      exact hp.2
    · have : (none : Option ValidatedSummary) = some vs := by
        rw [← h]
        show _ = (if pyTruthy bs ∧ 7/10 ≤ bg then _ else none)
        rw [if_neg hp]
      cases this
  | cons a rest ih =>
    intro bs bg vs h
    rcases a with _ | o
    · exact ih bs bg vs h
    · by_cases hacc : thr ≤ o.groundedness ∧ o.nli_contradictions = 0
      · rw [sv_loop_some_accept paper rest bs bg hacc.1 hacc.2] at h
        have hvs := Option.some.inj h
        rw [← hvs]
        exact le_trans h7 hacc.1
      · rw [sv_loop_some_reject paper rest bs bg hacc] at h
        exact ih _ _ vs h

/-- C1 counterexample, two instances (conjuncts 1-3 and 4-5): with the
default strict threshold 0.95, an attempt whose summary text is empty,
groundedness 0.8 and one NLI contradiction is the best-scoring attempt
and clears the 0.70 loose threshold, yet the function returns null
(inner_loop.py line 505 tests Python truthiness of the summary string);
and with a configured strict threshold of 0.5, a summary with
groundedness 0.5 < 0.70 is returned, refuting "every ValidatedSummary it
returns has groundedness ≥ 0.70". -/
theorem claim_C1_counterexample :
    summarize_and_validate (95/100) sample_paper (some ⟨"", 4/5, 1⟩) none = none ∧
    (best_attempt [some ⟨"", 4/5, 1⟩, none]).2 = 4/5 ∧
    (7 : ℚ)/10 ≤ 4/5 ∧
    summarize_and_validate (1/2) sample_paper (some ⟨"s", 1/2, 0⟩) none =
      some ⟨"pa", "Unknown", "s", 1/2⟩ ∧
    (1 : ℚ)/2 < 7/10 := by
  refine ⟨by with_unfolding_all rfl, by with_unfolding_all rfl, by norm_num,
    by with_unfolding_all rfl, by norm_num⟩

/-- C1 amended: on a paper with neither (non-empty) full text nor abstract
the function returns null; otherwise it makes at most two attempts and
returns immediately with the attempt's own summary and score when that
attempt reaches the strict threshold with zero NLI contradictions; after
both attempts it returns the best-scoring summary exactly when that
summary is a non-empty string (Python truthiness) and its groundedness is
at least 0.70, else null; and whenever the strict threshold is itself at
least 0.70 (true of the default 0.95), every returned summary has
groundedness at least 0.70. -/
theorem claim_C1 (thr : ℚ) (paper : PaperDetails) (a1 a2 : Option AttemptOutcome) :
    (sv_context paper = "" → summarize_and_validate thr paper a1 a2 = none) ∧
    (sv_context paper ≠ "" → ∀ o1, a1 = some o1 → thr ≤ o1.groundedness →
      o1.nli_contradictions = 0 →
      summarize_and_validate thr paper a1 a2 =
        some ⟨paper.paper_id, pyOr paper.title "Unknown", o1.summary, o1.groundedness⟩) ∧
    (sv_context paper ≠ "" → strict_accept thr a1 = false → ∀ o2, a2 = some o2 →
      thr ≤ o2.groundedness → o2.nli_contradictions = 0 →
      summarize_and_validate thr paper a1 a2 =
        some ⟨paper.paper_id, pyOr paper.title "Unknown", o2.summary, o2.groundedness⟩) ∧
    (sv_context paper ≠ "" → strict_accept thr a1 = false → strict_accept thr a2 = false →
      summarize_and_validate thr paper a1 a2 =
        (if pyTruthy (best_attempt [a1, a2]).1 ∧ 7/10 ≤ (best_attempt [a1, a2]).2 then
          some ⟨paper.paper_id, pyOr paper.title "Unknown",
            (best_attempt [a1, a2]).1.getD "", (best_attempt [a1, a2]).2⟩
        else none)) ∧
    (7/10 ≤ thr → ∀ vs, summarize_and_validate thr paper a1 a2 = some vs →
      7/10 ≤ vs.groundedness) := by
  by_cases hc : sv_context paper = ""
  · have hnone : summarize_and_validate thr paper a1 a2 = none := by
      unfold summarize_and_validate
      rw [if_pos hc]
    refine ⟨fun _ => hnone, fun hne => absurd hc hne, fun hne => absurd hc hne,
      fun hne => absurd hc hne, ?_⟩
    intro _ vs hvs
    rw [hnone] at hvs
    cases hvs
  · have hs : summarize_and_validate thr paper a1 a2 = sv_loop thr paper [a1, a2] none 0 := by
      unfold summarize_and_validate
      rw [if_neg hc]
    refine ⟨fun h => absurd h hc, ?_, ?_, ?_, ?_⟩
    · intro _ o1 ha1 h1 h2
      subst ha1
      rw [hs]
      exact sv_loop_some_accept paper [a2] none 0 h1 h2
    · intro _ hrej1 o2 ha2 h1 h2
      subst ha2
      rw [hs]
      rcases a1 with _ | o1
      · exact sv_loop_some_accept paper [] none 0 h1 h2
      · rw [sv_loop_some_reject paper [some o2] none 0 (strict_accept_false hrej1)]
        exact sv_loop_some_accept paper [] _ _ h1 h2
    · intro _ hrej1 hrej2
      rw [hs]
      exact sv_loop_no_accept thr paper [a1, a2] none 0 (by
        intro a ha
        rcases List.mem_cons.mp ha with h | h
        · rw [h]; exact hrej1
        · rcases List.mem_cons.mp h with h | h
          · rw [h]; exact hrej2
          · cases h)
    · intro h7 vs hvs
      rw [hs] at hvs
      exact sv_loop_ge paper h7 [a1, a2] none 0 vs hvs

/-- Witness for the amended C1 at the default threshold 0.95: an empty
paper yields null; a first attempt at groundedness 0.96 with no
contradictions is accepted immediately; a rejected pair of attempts at
0.8/0.75 (with contradictions) falls back to the best, which is returned
with groundedness 0.8 ≥ 0.70. -/
theorem claim_C1_witness :
    summarize_and_validate (95/100) empty_paper none none = none ∧
    summarize_and_validate (95/100) sample_paper (some ⟨"good", 96/100, 0⟩) none =
      some ⟨"pa", "Unknown", "good", 96/100⟩ ∧
    summarize_and_validate (95/100) sample_paper
        (some ⟨"first", 4/5, 1⟩) (some ⟨"second", 3/4, 1⟩) =
      some ⟨"pa", "Unknown", "first", 4/5⟩ ∧
    (7 : ℚ)/10 ≤ 4/5 := by
  obtain ⟨ha, -, -, -, -⟩ := claim_C1 (95/100) empty_paper none none
  obtain ⟨-, hb, -, -, -⟩ := claim_C1 (95/100) sample_paper (some ⟨"good", 96/100, 0⟩) none
  obtain ⟨-, -, -, hd, he⟩ := claim_C1 (95/100) sample_paper
    (some ⟨"first", 4/5, 1⟩) (some ⟨"second", 3/4, 1⟩)
  refine ⟨ha (by decide), hb (by decide) _ rfl (by norm_num) rfl, ?_, by norm_num⟩
  have := hd (by decide) (by with_unfolding_all rfl) (by with_unfolding_all rfl)
  rw [this]
  with_unfolding_all rfl

theorem dict_mem_isSome_get {α : Type} (l : List (String × α)) (k : String) :
    dict_mem l k = (dict_get l k).isSome := by
  unfold dict_mem dict_get
  induction l with
  | nil => rfl
  | cons kv rest ih =>
    by_cases hk : kv.1 = k
    · rw [List.find?_cons_of_pos _ (by simpa using hk)]
      simp [hk]
    · rw [List.find?_cons_of_neg _ (by simpa using hk)]
      simpa [hk] using ih

theorem copy_step_papers (parent c : Branch) (pid : String) :
    (copy_step parent c pid).accumulated_papers =
      match dict_get parent.accumulated_papers pid with
      | some p => dict_insert c.accumulated_papers pid p
      | none => c.accumulated_papers := by
  unfold copy_step
  cases hg : dict_get parent.accumulated_papers pid <;>
    cases hs : dict_get parent.accumulated_summaries pid <;>
      simp [hg, hs]

theorem copy_step_mem (parent c : Branch) (pid x : String) :
    dict_mem (copy_step parent c pid).accumulated_papers x = true ↔
      ((x = pid ∧ dict_mem parent.accumulated_papers x = true) ∨
        dict_mem c.accumulated_papers x = true) := by
  rw [copy_step_papers]
  cases hg : dict_get parent.accumulated_papers pid with
  | none =>
    have hmem : dict_mem parent.accumulated_papers pid = false := by
      rw [dict_mem_isSome_get, hg]
      rfl
    show dict_mem c.accumulated_papers x = true ↔ _
    constructor
    · intro h
      exact Or.inr h
    · rintro (⟨hx, hp⟩ | h)
      · subst hx
        rw [hmem] at hp
        cases hp
      · exact h
  | some p =>
    have hmem : dict_mem parent.accumulated_papers pid = true := by
      rw [dict_mem_isSome_get, hg]
      rfl
    show dict_mem (dict_insert c.accumulated_papers pid p) x = true ↔ _
    rw [dict_mem_insert_iff]
    constructor
    · rintro (hx | h)
      · exact Or.inl ⟨hx, hx ▸ hmem⟩
      · exact Or.inr h
    · rintro (⟨hx, -⟩ | h)
      · exact Or.inl hx
      · exact Or.inr h

theorem copy_group_mem (parent : Branch) :
    ∀ (group : List String) (child : Branch) (x : String),
      dict_mem (copy_group parent child group).accumulated_papers x = true ↔
        ((x ∈ group ∧ dict_mem parent.accumulated_papers x = true) ∨
          dict_mem child.accumulated_papers x = true) := by
  intro group
  induction group with
  | nil =>
    intro child x
    simp [copy_group]
  | cons pid rest ih =>
    intro child x
    show dict_mem (copy_group parent (copy_step parent child pid) rest).accumulated_papers x
      = true ↔ _
    rw [ih, copy_step_mem]
    simp only [List.mem_cons]
    constructor
    · rintro (⟨hr, hp⟩ | ⟨hx, hp⟩ | h)
      · exact Or.inl ⟨Or.inr hr, hp⟩
      · exact Or.inl ⟨Or.inl hx, hp⟩
      · exact Or.inr h
    · rintro (⟨hx | hr, hp⟩ | h)
      · exact Or.inr (Or.inl ⟨hx, hp⟩)
      · exact Or.inl ⟨hr, hp⟩
      · exact Or.inr (Or.inr h)

theorem split_branch_children_length (idGen : Nat → String) (max_ctx : Nat)
    (parent : Branch) (groups : List (List String)) (queries labels : List String)
    (h1 : queries.length = groups.length) (h2 : labels.length = groups.length) :
    (split_branch idGen max_ctx parent groups queries labels).1.length = groups.length := by
  show ((groups.zip (queries.zip labels)).enum.map _).length = _
  rw [List.length_map, List.enum_length, List.length_zip, List.length_zip, h1, h2]
  simp

theorem split_branch_child_get (idGen : Nat → String) (max_ctx : Nat) (parent : Branch)
    (groups : List (List String)) (queries labels : List String)
    (h1 : queries.length = groups.length) (h2 : labels.length = groups.length)
    (i : Nat) (c : Branch)
    (hc : (split_branch idGen max_ctx parent groups queries labels).1.get? i = some c) :
    ∃ hi : i < groups.length,
      c = copy_group parent
        (create_branch (idGen i) (queries.get ⟨i, by rw [h1]; exact hi⟩) parent.mode
          (some parent.id) max_ctx)
        (groups.get ⟨i, hi⟩) := by
  obtain ⟨hlen, hget⟩ := List.get?_eq_some.mp hc
  have hlen' : i < groups.length := by
    rw [← split_branch_children_length idGen max_ctx parent groups queries labels h1 h2]
    exact hlen
  refine ⟨hlen', ?_⟩
  rw [← hget]
  have hiz : i < (groups.zip (queries.zip labels)).length := by
    rw [List.length_zip, List.length_zip, h1, h2]
    simpa using hlen'
  have hq : i < queries.length := by rw [h1]; exact hlen'
  have hl : i < labels.length := by rw [h2]; exact hlen'
  show ((groups.zip (queries.zip labels)).enum.map _).get ⟨i, hlen⟩ = _
  rw [List.get_eq_getElem, List.getElem_map, List.getElem_enum, List.getElem_zip,
    List.getElem_zip]
  rfl

/-- C2 counterexample: a parent with papers `p1`, `p2` split with the
overlapping groups `[[p1], [p1]]` puts `p1` into both children (no
earlier-group precedence) and `p2` into none — so it is not the case that
each parent paper ends up in exactly one child. -/
theorem claim_C2_counterexample :
    ((split_branch sample_idgen 100 sample_parent [["p1"], ["p1"]] ["q1", "q2"]
      ["a", "b"]).1.countP (fun c => dict_mem c.accumulated_papers "p1")) = 2 ∧
    ((split_branch sample_idgen 100 sample_parent [["p1"], ["p1"]] ["q1", "q2"]
      ["a", "b"]).1.countP (fun c => dict_mem c.accumulated_papers "p2")) = 0 ∧
    ¬(∀ x ∈ dict_keys sample_parent.accumulated_papers,
        ((split_branch sample_idgen 100 sample_parent [["p1"], ["p1"]] ["q1", "q2"]
          ["a", "b"]).1.countP (fun c => dict_mem c.accumulated_papers x)) = 1) := by
  refine ⟨by decide, by decide, by decide⟩

/-- C2 amended: a split produces one child per (group, query, label)
triple; each child's copied papers are a subset of the parent's
accumulated papers; the parent transitions to COMPLETED; a paper lands in
child `i` exactly when group `i` lists it and the parent holds it — so on
overlapping groups a paper is copied into every child whose group lists it
(no earlier-group precedence), and a parent paper in no group reaches no
child; when the groups are pairwise disjoint, no paper ends up in two
children. -/
theorem claim_C2 (idGen : Nat → String) (max_ctx : Nat) (parent : Branch)
    (groups : List (List String)) (queries labels : List String)
    (h1 : queries.length = groups.length) (h2 : labels.length = groups.length) :
    (split_branch idGen max_ctx parent groups queries labels).1.length = groups.length ∧
    (∀ c ∈ (split_branch idGen max_ctx parent groups queries labels).1, ∀ x,
      dict_mem c.accumulated_papers x = true →
      dict_mem parent.accumulated_papers x = true) ∧
    (split_branch idGen max_ctx parent groups queries labels).2.status = .completed ∧
    (∀ i c, (split_branch idGen max_ctx parent groups queries labels).1.get? i = some c →
      ∀ x, dict_mem c.accumulated_papers x = true ↔
        (x ∈ groups.getD i [] ∧ dict_mem parent.accumulated_papers x = true)) ∧
    (List.Pairwise (fun g1 g2 => ∀ x ∈ g1, x ∉ g2) groups →
      ∀ x, (split_branch idGen max_ctx parent groups queries labels).1.Pairwise
        (fun c1 c2 => ¬(dict_mem c1.accumulated_papers x = true ∧
          dict_mem c2.accumulated_papers x = true))) := by
  have hchar : ∀ i c,
      (split_branch idGen max_ctx parent groups queries labels).1.get? i = some c →
      ∀ x, dict_mem c.accumulated_papers x = true ↔
        (x ∈ groups.getD i [] ∧ dict_mem parent.accumulated_papers x = true) := by
    intro i c hc x
    obtain ⟨hi, hceq⟩ := split_branch_child_get idGen max_ctx parent groups queries labels
      h1 h2 i c hc
    rw [hceq, copy_group_mem]
    have hempty : dict_mem (create_branch (idGen i)
        (queries.get ⟨i, by rw [h1]; exact hi⟩) parent.mode
        (some parent.id) max_ctx).accumulated_papers x = false := rfl
    rw [hempty]
    rw [List.getD_eq_getElem groups [] hi]
    simp [List.get_eq_getElem]
  refine ⟨split_branch_children_length idGen max_ctx parent groups queries labels h1 h2,
    ?_, rfl, hchar, ?_⟩
  · intro c hc x hx
    obtain ⟨i, hi⟩ := List.get_of_mem hc
    have hc? : (split_branch idGen max_ctx parent groups queries labels).1.get? i.1 =
        some c := by
      rw [List.get?_eq_get i.2]
      rw [hi]
    exact ((hchar i.1 c hc? x).mp hx).2
  · intro hdisj x
    rw [List.pairwise_iff_getElem]
    intro i j hi hj hij hmem
    have hglen := split_branch_children_length idGen max_ctx parent groups queries labels h1 h2
    have hgi : i < groups.length := by rw [← hglen]; exact hi
    have hgj : j < groups.length := by rw [← hglen]; exact hj
    have hci := hchar i _ (List.get?_eq_get hi) x
    have hcj := hchar j _ (List.get?_eq_get hj) x
    rw [List.get_eq_getElem] at hci hcj
    have hxi := (hci.mp hmem.1).1
    have hxj := (hcj.mp hmem.2).1
    rw [List.getD_eq_getElem groups [] hgi] at hxi
    rw [List.getD_eq_getElem groups [] hgj] at hxj
    exact (List.pairwise_iff_getElem.mp hdisj i j hgi hgj hij) x hxi hxj

/-- Witness for the amended C2: a disjoint split of the two-paper parent
into `[[p1], [p2]]`. -/
theorem claim_C2_witness :
    (split_branch sample_idgen 100 sample_parent [["p1"], ["p2"]] ["q1", "q2"]
      ["a", "b"]).1.length = 2 ∧
    (split_branch sample_idgen 100 sample_parent [["p1"], ["p2"]] ["q1", "q2"]
      ["a", "b"]).2.status = .completed ∧
    (split_branch sample_idgen 100 sample_parent [["p1"], ["p2"]] ["q1", "q2"]
      ["a", "b"]).1.Pairwise
        (fun c1 c2 => ¬(dict_mem c1.accumulated_papers "p1" = true ∧
          dict_mem c2.accumulated_papers "p1" = true)) := by
  obtain ⟨hlen, -, hstat, -, hdisj⟩ := claim_C2 sample_idgen 100 sample_parent
    [["p1"], ["p2"]] ["q1", "q2"] ["a", "b"] rfl rfl
  exact ⟨hlen, hstat, hdisj (by decide) "p1"⟩

theorem merged_fold_excl (excl : List String) :
    ∀ (xs : List PaperDetails) (acc : List (String × PaperDetails)),
      (∀ kv ∈ acc, excl.contains kv.2.paper_id = false) →
      ∀ kv ∈ xs.foldl (fun acc p => if excl.contains p.paper_id then acc
        else dict_insert acc p.paper_id p) acc,
        excl.contains kv.2.paper_id = false := by
  intro xs
  induction xs with
  | nil => intro acc h; exact h
  | cons p rest ih =>
    intro acc h
    rw [List.foldl_cons]
    apply ih
    intro kv hkv
    by_cases hex : excl.contains p.paper_id
    · rw [if_pos hex] at hkv
      exact h kv hkv
    · rw [if_neg hex] at hkv
      rcases mem_dict_insert hkv with h1 | h1
      · rw [h1]
        simpa using hex
      · exact h kv h1

theorem related_merged_excl (cfg : IterationConfig) (cits refs : List PaperDetails)
    (excl : List String) :
    ∀ kv ∈ related_merged cfg cits refs excl, excl.contains kv.2.paper_id = false := by
  have hbase : ∀ kv ∈ (cits.foldl (fun acc p => if excl.contains p.paper_id then acc
      else dict_insert acc p.paper_id p) []), excl.contains kv.2.paper_id = false :=
    merged_fold_excl excl cits [] (by intro kv h; cases h)
  intro kv hkv
  unfold related_merged at hkv
  rcases cfg with ⟨mcit, mref, inc, mpap⟩
  cases inc
  · exact hbase kv hkv
  · exact merged_fold_excl excl refs _ hbase kv hkv

theorem get_related_papers_eq_of_lt (cfg : IterationConfig)
    (cits refs : List PaperDetails) (excl : List String)
    (h : cfg.max_papers_per_iteration <
      ((related_merged cfg cits refs excl).map (·.2)).length) :
    get_related_papers cfg cits refs excl =
      (((related_merged cfg cits refs excl).map (·.2)).mergeSort by_citations_desc).take
        cfg.max_papers_per_iteration := by
  unfold get_related_papers
  show (if cfg.max_papers_per_iteration <
      ((related_merged cfg cits refs excl).map (·.2)).length then
    (((related_merged cfg cits refs excl).map (·.2)).mergeSort by_citations_desc).take
      cfg.max_papers_per_iteration
    else (related_merged cfg cits refs excl).map (·.2)) = _
  rw [if_pos h]

theorem get_related_papers_eq_of_le (cfg : IterationConfig)
    (cits refs : List PaperDetails) (excl : List String)
    (h : ¬cfg.max_papers_per_iteration <
      ((related_merged cfg cits refs excl).map (·.2)).length) :
    get_related_papers cfg cits refs excl =
      (related_merged cfg cits refs excl).map (·.2) := by
  unfold get_related_papers
  show (if cfg.max_papers_per_iteration <
      ((related_merged cfg cits refs excl).map (·.2)).length then
    (((related_merged cfg cits refs excl).map (·.2)).mergeSort by_citations_desc).take
      cfg.max_papers_per_iteration
    else (related_merged cfg cits refs excl).map (·.2)) = _
  rw [if_neg h]

theorem get_related_papers_subset (cfg : IterationConfig)
    (cits refs : List PaperDetails) (excl : List String) :
    ∀ p ∈ get_related_papers cfg cits refs excl,
      p ∈ (related_merged cfg cits refs excl).map (·.2) := by
  intro p hp
  by_cases h : cfg.max_papers_per_iteration <
      ((related_merged cfg cits refs excl).map (·.2)).length
  · rw [get_related_papers_eq_of_lt cfg cits refs excl h] at hp
    exact (List.mergeSort_perm _ _).mem_iff.mp ((List.take_sublist _ _).mem hp)
  · rw [get_related_papers_eq_of_le cfg cits refs excl h] at hp
    exact hp

theorem get_related_papers_excl (cfg : IterationConfig)
    (cits refs : List PaperDetails) (excl : List String) :
    ∀ p ∈ get_related_papers cfg cits refs excl, excl.contains p.paper_id = false := by
  intro p hp
  rcases List.mem_map.mp (get_related_papers_subset cfg cits refs excl p hp) with
    ⟨kv, hkv, heq⟩
  rw [← heq]
  exact related_merged_excl cfg cits refs excl kv hkv

theorem get_related_papers_length (cfg : IterationConfig)
    (cits refs : List PaperDetails) (excl : List String) :
    (get_related_papers cfg cits refs excl).length ≤ cfg.max_papers_per_iteration := by
  by_cases h : cfg.max_papers_per_iteration <
      ((related_merged cfg cits refs excl).map (·.2)).length
  · rw [get_related_papers_eq_of_lt cfg cits refs excl h, List.length_take]
    exact min_le_left _ _
  · rw [get_related_papers_eq_of_le cfg cits refs excl h]
    exact le_of_not_lt h

theorem by_citations_desc_trans (a b c : PaperDetails)
    (h1 : by_citations_desc a b = true) (h2 : by_citations_desc b c = true) :
    by_citations_desc a c = true := by
  simp only [by_citations_desc, decide_eq_true_eq] at h1 h2 ⊢
  omega

theorem by_citations_desc_total (a b : PaperDetails) :
    (by_citations_desc a b || by_citations_desc b a) = true := by
  simp only [by_citations_desc, Bool.or_eq_true, decide_eq_true_eq]
  omega

theorem get_related_papers_sorted (cfg : IterationConfig)
    (cits refs : List PaperDetails) (excl : List String)
    (h : cfg.max_papers_per_iteration <
      ((related_merged cfg cits refs excl).map (·.2)).length) :
    (get_related_papers cfg cits refs excl).Pairwise
      (fun p q => cit_count q ≤ cit_count p) := by
  rw [get_related_papers_eq_of_lt cfg cits refs excl h]
  have hsorted := List.sorted_mergeSort by_citations_desc_trans by_citations_desc_total
    ((related_merged cfg cits refs excl).map (·.2))
  have hp := List.Pairwise.sublist (List.take_sublist cfg.max_papers_per_iteration _) hsorted
  exact hp.imp (fun hab => by simpa [by_citations_desc] using hab)

theorem run_iteration_subsequent_empty (cfg : IterationConfig) (branch : Branch)
    (cit ref : List String → Nat → List PaperDetails)
    (fetch : List String → Option (List PaperDetails))
    (summarize : List PaperDetails → List ValidatedSummary)
    (hyp_gen : List ValidatedSummary → List ResearchHypothesis)
    (estimate : List PaperDetails → List ValidatedSummary → Nat)
    (h : iteration_frontier cfg branch cit ref = []) :
    run_iteration_subsequent cfg branch cit ref fetch summarize hyp_gen estimate =
      { iteration_number := branch.iterations.length + 1, papers_found := [],
        summaries := [],
        hypotheses := if branch.mode = .hypothesis then some [] else none,
        context_tokens_used := 0 } := by
  unfold run_iteration_subsequent
  show (if iteration_frontier cfg branch cit ref = [] then _ else _) = _
  rw [if_pos h]

theorem run_iteration_subsequent_papers (cfg : IterationConfig) (branch : Branch)
    (cit ref : List String → Nat → List PaperDetails)
    (fetch : List String → Option (List PaperDetails))
    (summarize : List PaperDetails → List ValidatedSummary)
    (hyp_gen : List ValidatedSummary → List ResearchHypothesis)
    (estimate : List PaperDetails → List ValidatedSummary → Nat)
    (h : iteration_frontier cfg branch cit ref ≠ [])
    (hf : fetch ((iteration_frontier cfg branch cit ref).map (·.paper_id)) = none) :
    (run_iteration_subsequent cfg branch cit ref fetch summarize hyp_gen
        estimate).papers_found =
      iteration_frontier cfg branch cit ref := by
  unfold run_iteration_subsequent
  show (if iteration_frontier cfg branch cit ref = [] then
      { iteration_number := branch.iterations.length + 1, papers_found := [],
        summaries := [],
        hypotheses := if branch.mode = .hypothesis then some [] else none,
        context_tokens_used := 0 }
    else
      run_iteration_nonempty (branch.iterations.length + 1)
        (decide (branch.mode = .hypothesis)) (iteration_frontier cfg branch cit ref)
        fetch summarize hyp_gen estimate).papers_found =
    iteration_frontier cfg branch cit ref
  rw [if_neg h]
  unfold run_iteration_nonempty
  rw [hf]

/-- C4: subsequent iterations build the frontier from the previous
iteration's paper ids with the configured per-paper citation and reference
caps (visible in `iteration_frontier`); every frontier paper's id is
absent from `accumulated_papers`; the frontier is capped at
`max_papers_per_iteration`, and when the merged set exceeds the cap the
frontier is the descending-citation-count-sorted prefix; an empty merged
frontier yields an `IterationResult` with no papers, no summaries and
zero context tokens. -/
theorem claim_C4 :
    (∀ (cfg : IterationConfig) (branch : Branch) cit ref,
      ∀ p ∈ iteration_frontier cfg branch cit ref,
        dict_mem branch.accumulated_papers p.paper_id = false) ∧
    (∀ (cfg : IterationConfig) (branch : Branch) cit ref,
      (iteration_frontier cfg branch cit ref).length ≤ cfg.max_papers_per_iteration) ∧
    (∀ (cfg : IterationConfig) (branch : Branch) cit ref,
      cfg.max_papers_per_iteration <
        ((related_merged cfg (cit (previous_iteration_ids branch) cfg.max_citations_per_paper)
          (ref (previous_iteration_ids branch) cfg.max_references_per_paper)
          (dict_keys branch.accumulated_papers)).map (·.2)).length →
      iteration_frontier cfg branch cit ref =
        (((related_merged cfg
            (cit (previous_iteration_ids branch) cfg.max_citations_per_paper)
            (ref (previous_iteration_ids branch) cfg.max_references_per_paper)
            (dict_keys branch.accumulated_papers)).map (·.2)).mergeSort
          by_citations_desc).take cfg.max_papers_per_iteration ∧
      (iteration_frontier cfg branch cit ref).Pairwise
        (fun p q => cit_count q ≤ cit_count p)) ∧
    (∀ (cfg : IterationConfig) (branch : Branch) cit ref fetch summarize hyp_gen estimate,
      iteration_frontier cfg branch cit ref = [] →
      run_iteration_subsequent cfg branch cit ref fetch summarize hyp_gen estimate =
        { iteration_number := branch.iterations.length + 1, papers_found := [],
          summaries := [],
          hypotheses := if branch.mode = .hypothesis then some [] else none,
          context_tokens_used := 0 }) ∧
    (∀ (cfg : IterationConfig) (branch : Branch) cit ref fetch summarize hyp_gen estimate,
      iteration_frontier cfg branch cit ref ≠ [] →
      fetch ((iteration_frontier cfg branch cit ref).map (·.paper_id)) = none →
      (run_iteration_subsequent cfg branch cit ref fetch summarize hyp_gen
          estimate).papers_found = iteration_frontier cfg branch cit ref) := by
  refine ⟨?_, ?_, ?_, run_iteration_subsequent_empty, run_iteration_subsequent_papers⟩
  · intro cfg branch cit ref p hp
    have hx := get_related_papers_excl cfg _ _ (dict_keys branch.accumulated_papers) p hp
    have hmem : p.paper_id ∉ dict_keys branch.accumulated_papers := by
      intro hmem
      rw [List.contains_eq_any_beq] at hx
      have : (dict_keys branch.accumulated_papers).any (p.paper_id == ·) = true := by
        rw [List.any_eq_true]
        exact ⟨p.paper_id, hmem, by simp⟩
      rw [this] at hx
      cases hx
    by_contra hfalse
    rw [Bool.not_eq_false] at hfalse
    rcases (dict_mem_iff _ _).mp hfalse with ⟨kv, hkv, hk⟩
    exact hmem (hk ▸ List.mem_map_of_mem (·.1) hkv)
  · intro cfg branch cit ref
    exact get_related_papers_length cfg _ _ _
  · intro cfg branch cit ref h
    exact ⟨get_related_papers_eq_of_lt cfg _ _ _ h, get_related_papers_sorted cfg _ _ _ h⟩

/-- Witness for C4: with empty citation/reference batches the frontier of
`sample_branch_b` is empty and the subsequent iteration is the empty
result; with one new citing paper the frontier member's id is not among
the accumulated papers. -/
theorem claim_C4_witness :
    run_iteration_subsequent {} sample_branch_b (fun _ _ => []) (fun _ _ => [])
        (fun _ => none) (fun _ => []) (fun _ => []) (fun _ _ => 0) =
      { iteration_number := 2, papers_found := [], summaries := [],
        hypotheses := none, context_tokens_used := 0 } ∧
    dict_mem sample_branch_b.accumulated_papers (mk_paper 3).paper_id = false := by
  constructor
  · rw [claim_C4.2.2.2.1 {} sample_branch_b (fun _ _ => []) (fun _ _ => [])
      (fun _ => none) (fun _ => []) (fun _ => []) (fun _ _ => 0) (by decide)]
    decide
  · exact claim_C4.1 {} sample_branch_b (fun _ _ => [mk_paper 3]) (fun _ _ => [])
      (mk_paper 3) (by decide)

theorem get_next_branch_spec {s : LoopState} {b : Branch}
    (h : get_next_branch s = some b) :
    ∃ kv ∈ s.branches, kv.2 = b ∧ (b.status = .running ∨ b.status = .pending) := by
  unfold get_next_branch at h
  cases hf : s.branches.find? (fun kv => kv.2.status = .running) with
  | some kv =>
    rw [hf] at h
    have hb := Option.some.inj h
    have hmem := List.mem_of_find?_eq_some hf
    have hp := List.find?_some hf
    exact ⟨kv, hmem, hb, Or.inl (by rw [← hb]; exact of_decide_eq_true hp)⟩
  | none =>
    rw [hf] at h
    cases hf2 : s.branches.find? (fun kv => kv.2.status = .pending) with
    | some kv =>
      rw [hf2] at h
      have hb : kv.2 = b := Option.some.inj h
      have hmem := List.mem_of_find?_eq_some hf2
      have hp := List.find?_some hf2
      exact ⟨kv, hmem, hb, Or.inr (by rw [← hb]; exact of_decide_eq_true hp)⟩
    | none =>
      rw [hf2] at h
      cases h

theorem nodup_dict_get {α : Type} :
    ∀ l : List (String × α), (l.map (·.1)).Nodup → ∀ kv ∈ l, dict_get l kv.1 = some kv.2 := by
  intro l
  induction l with
  | nil =>
    intro _ kv h
    cases h
  | cons a rest ih =>
    intro hnd kv hkv
    rw [List.map_cons] at hnd
    obtain ⟨hna, hnrest⟩ := List.nodup_cons.mp hnd
    rcases List.mem_cons.mp hkv with h | h
    · subst h
      unfold dict_get
      rw [List.find?_cons_of_pos _ (by simp)]
      rfl
    · have hne : ¬a.1 = kv.1 := by
        intro heq
        exact hna (heq ▸ List.mem_map_of_mem (·.1) h)
      unfold dict_get
      rw [List.find?_cons_of_neg _ (by simpa using hne)]
      exact ih hnrest kv h

theorem wf_get_branch_id {s : LoopState} (hwf : s.wf) {k : String} {br : Branch}
    (h : s.get_branch k = some br) : br.id = k := by
  unfold LoopState.get_branch dict_get at h
  cases hf : s.branches.find? (fun kv => kv.1 = k) with
  | none =>
    rw [hf] at h
    cases h
  | some kv =>
    rw [hf] at h
    have hb : kv.2 = br := Option.some.inj h
    have hp := List.find?_some hf
    have hk : kv.1 = k := by simpa using hp
    have := hwf.1 kv (List.mem_of_find?_eq_some hf)
    rw [← hb, ← this, hk]

theorem wf_get_next_branch {s : LoopState} (hwf : s.wf) {b : Branch}
    (h : get_next_branch s = some b) : s.get_branch b.id = some b := by
  obtain ⟨kv, hkv, hb, -⟩ := get_next_branch_spec h
  have hkey : kv.1 = b.id := by rw [hwf.1 kv hkv, hb]
  have := nodup_dict_get s.branches hwf.2 kv hkv
  rw [hkey] at this
  unfold LoopState.get_branch
  rw [this, hb]

theorem dict_get_map_update_self {α : Type} :
    ∀ (l : List (String × α)) (k : String) (v : α), dict_mem l k = true →
      dict_get (l.map (fun kv => if kv.1 = k then (k, v) else kv)) k = some v := by
  intro l
  induction l with
  | nil =>
    intro k v h
    simp [dict_mem] at h
  | cons a rest ih =>
    intro k v h
    rw [List.map_cons]
    by_cases hk : a.1 = k
    · rw [if_pos hk]
      unfold dict_get
      rw [List.find?_cons_of_pos _ (by simp)]
      rfl
    · rw [if_neg hk]
      unfold dict_get
      rw [List.find?_cons_of_neg _ (by simpa using hk)]
      apply ih
      simpa [dict_mem, List.any_cons, hk] using h

theorem dict_get_map_update_other {α : Type} :
    ∀ (l : List (String × α)) (k k' : String) (v : α), k' ≠ k →
      dict_get (l.map (fun kv => if kv.1 = k then (k, v) else kv)) k' = dict_get l k' := by
  intro l
  induction l with
  | nil =>
    intro k k' v _
    rfl
  | cons a rest ih =>
    intro k k' v hne
    rw [List.map_cons]
    by_cases hk : a.1 = k
    · rw [if_pos hk]
      unfold dict_get
      rw [List.find?_cons_of_neg _ (by simpa using fun heq => hne heq.symm)]
      rw [List.find?_cons_of_neg _ (by
        simp only [decide_eq_true_eq]
        intro heq
        exact hne (heq ▸ hk ▸ rfl))]
      exact ih k k' v hne
    · rw [if_neg hk]
      by_cases ha : a.1 = k'
      · unfold dict_get
        rw [List.find?_cons_of_pos _ (by simpa using ha),
          List.find?_cons_of_pos _ (by simpa using ha)]
      · unfold dict_get
        rw [List.find?_cons_of_neg _ (by simpa using ha),
          List.find?_cons_of_neg _ (by simpa using ha)]
        exact ih k k' v hne

theorem update_branch_get_self {s : LoopState} {id : String} {br : Branch} (b : Branch)
    (h : s.get_branch id = some br) :
    (s.update_branch id b).get_branch id = some b := by
  apply dict_get_map_update_self
  rw [dict_mem_isSome_get]
  unfold LoopState.get_branch at h
  rw [h]
  rfl

theorem update_branch_get_other (s : LoopState) (id k : String) (b : Branch)
    (hne : k ≠ id) :
    (s.update_branch id b).get_branch k = s.get_branch k :=
  dict_get_map_update_other s.branches id k b hne

theorem prune_branch_state_get_self {s : LoopState} {id : String} {br : Branch}
    (h : s.get_branch id = some br) :
    (prune_branch_state s id).get_branch id = some (prune_branch br) := by
  unfold prune_branch_state
  rw [h]
  exact update_branch_get_self (prune_branch br) h

theorem prune_branch_state_get_other (s : LoopState) (id k : String) (hne : k ≠ id) :
    (prune_branch_state s id).get_branch k = s.get_branch k := by
  unfold prune_branch_state
  cases h : s.get_branch id with
  | none => rfl
  | some br => exact update_branch_get_other s id k (prune_branch br) hne

theorem get_next_branch_prune {s : LoopState} {b : Branch} (hwf : s.wf)
    (hnb : get_next_branch s = some b) :
    ∀ b2, get_next_branch (prune_branch_state s b.id) = some b2 → b2.id ≠ b.id := by
  intro b2 h2 heq
  have hgb : s.get_branch b.id = some b := wf_get_next_branch hwf hnb
  obtain ⟨kv, hkv, hkv2, hstat⟩ := get_next_branch_spec h2
  have hkv' : kv ∈ s.branches.map
      (fun kv => if kv.1 = b.id then (b.id, prune_branch b) else kv) := by
    have : (prune_branch_state s b.id).branches = s.branches.map
        (fun kv => if kv.1 = b.id then (b.id, prune_branch b) else kv) := by
      unfold prune_branch_state
      rw [hgb]
      rfl
    rw [← this]
    exact hkv
  rcases List.mem_map.mp hkv' with ⟨kv0, hkv0, hmap⟩
  by_cases hk : kv0.1 = b.id
  · rw [if_pos hk] at hmap
    have : b2.status = BranchStatus.pruned := by
      rw [← hkv2, ← hmap]
      rfl
    rcases hstat with h | h <;> rw [this] at h <;> cases h
  · rw [if_neg hk] at hmap
    rw [hmap] at hkv0
    have := hwf.1 kv hkv0
    rw [hkv2, heq] at this
    rw [hmap] at hk
    exact hk this

/-- C5: an exception inside `run_iteration` on one branch never aborts
`run_auto`: the loop step catches it, prunes exactly the failing branch,
records `"Error: <e>"` as the reason, leaves every other branch untouched,
and continues with the next selectable branch — which is never the pruned
one. -/
theorem claim_C5
    (run_iter : LoopState → String → Except String (LoopState × IterationResult))
    (params : AutoParams) (fuel total : Nat) (counts : List (String × Nat))
    (log : List (String × String)) (state : LoopState) (branch : Branch) (e : String)
    (hwf : state.wf) (hnext : get_next_branch state = some branch)
    (htotal : total < params.max_iterations)
    (herr : run_iter state branch.id = .error e) :
    (run_auto_loop run_iter params (fuel + 1) state total counts log =
      (if stop_check params (prune_branch_state state branch.id) then
        (finish_auto (prune_branch_state state branch.id),
          log ++ [(branch.id, "Error: " ++ e)])
      else run_auto_loop run_iter params fuel (prune_branch_state state branch.id)
        total counts (log ++ [(branch.id, "Error: " ++ e)]))) ∧
    ((prune_branch_state state branch.id).get_branch branch.id =
      some (prune_branch branch)) ∧
    (∀ k, k ≠ branch.id → (prune_branch_state state branch.id).get_branch k =
      state.get_branch k) ∧
    (∀ b2, get_next_branch (prune_branch_state state branch.id) = some b2 →
      b2.id ≠ branch.id) := by
  refine ⟨?_, prune_branch_state_get_self (wf_get_next_branch hwf hnext),
    fun k hk => prune_branch_state_get_other state branch.id k hk,
    get_next_branch_prune hwf hnext⟩
  conv_lhs => rw [run_auto_loop]
  rw [if_neg (not_le.mpr htotal), hnext]
  simp only [herr]

/-- Witness for C5: in the two-pending-branch state, an oracle raising on
`b1` leads to `b1` pruned and the next selection picking `b2`. -/
theorem claim_C5_witness :
    (prune_branch_state sample_state2 "b1").get_branch "b1" =
      some (prune_branch sample_b1) ∧
    ∀ b2, get_next_branch (prune_branch_state sample_state2 "b1") = some b2 →
      b2.id ≠ "b1" := by
  obtain ⟨-, h2, -, h4⟩ := claim_C5 sample_run_iter {} 5 0 [] [] sample_state2
    sample_b1 "boom" (by exact ⟨by decide, by decide⟩) (by decide) (by decide) rfl
  exact ⟨h2, h4⟩

theorem execute_wrap_up (idGen : Nat → String) (max_ctx : Nat) (state : LoopState)
    (id : String) (b : Branch) (rec : SplitRecommendation)
    (hb : state.get_branch id = some b) (ha : rec.action = .wrap_up) :
    execute_agent_decision idGen max_ctx state id rec =
      state.update_branch id { b with status := .completed } := by
  unfold execute_agent_decision
  rw [hb, ha]

theorem master_run_iteration_wrap_up (flags : MasterFlags) (cfg : BranchConfig)
    (idGen : Nat → String) (state : LoopState) (id : String) (br : Branch)
    (iter hypr : IterationResult) (rec : SplitRecommendation)
    (hma : flags.has_managing_agent = true) (hah : flags.auto_hypothesis = true)
    (ha : rec.action = .wrap_up) (hb : state.get_branch id = some br)
    (hen : should_enable_hypothesis_mode cfg
      (Branch.add_iteration { br with status := .running } iter) = true) :
    ∃ s, master_run_iteration flags cfg idGen state id iter (some rec) hypr =
        .ok (s, iter) ∧
      s.get_branch id = some
        (Branch.add_iteration
          { Branch.add_iteration { br with status := .running } iter with
            status := .completed, mode := .hypothesis } hypr) := by
  have hb1 : (state.update_branch id
      (Branch.add_iteration { br with status := .running } iter)).get_branch id =
      some (Branch.add_iteration { br with status := .running } iter) :=
    update_branch_get_self _ hb
  have hexec := execute_wrap_up idGen cfg.max_context_window
    (state.update_branch id (Branch.add_iteration { br with status := .running } iter))
    id (Branch.add_iteration { br with status := .running } iter) rec hb1 ha
  have hb2 : ((state.update_branch id
      (Branch.add_iteration { br with status := .running } iter)).update_branch id
        { Branch.add_iteration { br with status := .running } iter with
          status := .completed }).get_branch id =
      some { Branch.add_iteration { br with status := .running } iter with
        status := .completed } :=
    update_branch_get_self _ hb1
  have hen' : should_enable_hypothesis_mode cfg
      { Branch.add_iteration { br with status := .running } iter with
        status := .completed } = true := hen
  unfold master_run_iteration
  rw [hb]
  simp only [hma, if_true, hexec, hb2, hah, hen', true_and, and_self, if_pos]
  exact ⟨_, rfl, update_branch_get_self _ hb2⟩

/-- C3 counterexample: in a one-branch state whose branch already meets
the hypothesis-mode paper threshold, the Managing Agent's WRAP_UP decision
marks the branch COMPLETED mid-way through `run_iteration` (the mid state
has 2 iterations and status COMPLETED), yet the same call's
auto-hypothesis step appends a further IterationResult: the final state
still has status COMPLETED but 3 iterations. -/
theorem claim_C3_counterexample :
    (master_run_iteration_mid sample_flags_agent sample_cfg sample_idgen sample_state "b"
        (empty_iteration 2) (some (SplitRecommendation.make_wrap_up "done"))).map
      (fun s => ((s.get_branch "b").map Branch.status,
        (s.get_branch "b").map (fun b => b.iterations.length))) =
      some (some .completed, some 2) ∧
    (match master_run_iteration sample_flags_agent sample_cfg sample_idgen sample_state "b"
        (empty_iteration 2) (some (SplitRecommendation.make_wrap_up "done"))
        (empty_iteration 3) with
     | .ok sr => ((sr.1.get_branch "b").map Branch.status,
         (sr.1.get_branch "b").map (fun b => b.iterations.length))
     | .error _ => (none, none)) = (some .completed, some 3) := by
  exact ⟨by decide, by decide⟩

/-- C3 amended: the scheduler's branch selection never returns a COMPLETED
or PRUNED branch, so `run_auto` never starts an iteration on a terminal
branch; but `run_iteration` itself does not guard terminal status, and
when the Managing Agent's WRAP_UP completes the branch inside
`run_iteration`, the subsequent auto-hypothesis step appends one more
IterationResult to the already-COMPLETED branch (final iterations are the
original ones plus the iteration's result plus the hypothesis run's
result, with status still COMPLETED). -/
theorem claim_C3 :
    (∀ (s : LoopState) (b : Branch), get_next_branch s = some b →
      b.status ≠ .completed ∧ b.status ≠ .pruned) ∧
    (∀ (flags : MasterFlags) (cfg : BranchConfig) (idGen : Nat → String)
      (state : LoopState) (id : String) (br : Branch) (iter hypr : IterationResult)
      (rec : SplitRecommendation),
      flags.has_managing_agent = true → flags.auto_hypothesis = true →
      rec.action = .wrap_up → state.get_branch id = some br →
      should_enable_hypothesis_mode cfg
        (Branch.add_iteration { br with status := .running } iter) = true →
      ∃ s, master_run_iteration flags cfg idGen state id iter (some rec) hypr =
          .ok (s, iter) ∧
        ∃ fb, s.get_branch id = some fb ∧ fb.status = .completed ∧
          fb.iterations = br.iterations ++ [iter, hypr]) := by
  constructor
  · intro s b h
    obtain ⟨-, -, -, hstat⟩ := get_next_branch_spec h
    rcases hstat with h | h <;> rw [h] <;> exact ⟨by decide, by decide⟩
  · intro flags cfg idGen state id br iter hypr rec hma hah ha hb hen
    obtain ⟨s, hs, hget⟩ := master_run_iteration_wrap_up flags cfg idGen state id br
      iter hypr rec hma hah ha hb hen
    refine ⟨s, hs, _, hget, rfl, ?_⟩
    show (Branch.add_iteration { br with status := .running } iter).iterations ++ [hypr] = _
    show ({ br with status := .running }.iterations ++ [iter]) ++ [hypr] = _
    rw [List.append_assoc]
    rfl

/-- Witness for the amended C3 at the counterexample's input. -/
theorem claim_C3_witness :
    (∀ b : Branch, get_next_branch sample_state = some b →
      b.status ≠ .completed ∧ b.status ≠ .pruned) ∧
    (∃ s, master_run_iteration sample_flags_agent sample_cfg sample_idgen sample_state "b"
        (empty_iteration 2) (some (SplitRecommendation.make_wrap_up "done"))
        (empty_iteration 3) = .ok (s, empty_iteration 2) ∧
      ∃ fb, s.get_branch "b" = some fb ∧ fb.status = .completed ∧
        fb.iterations = sample_branch_b.iterations ++
          [empty_iteration 2, empty_iteration 3]) := by
  refine ⟨fun b => claim_C3.1 sample_state b, ?_⟩
  exact claim_C3.2 sample_flags_agent sample_cfg sample_idgen sample_state "b"
    sample_branch_b (empty_iteration 2) (empty_iteration 3)
    (SplitRecommendation.make_wrap_up "done") rfl rfl rfl (by decide) (by decide)

theorem eval_turns_no_decision (branch : Branch) (warning : Option ContextWarning)
    (responses : Nat → TurnResponse)
    (h : ∀ t, ∃ hd tl, responses t = .tool_use hd tl ∧ find_decision (hd :: tl) = none) :
    ∀ (fuel turn : Nat),
      eval_turns branch warning responses turn fuel =
        some (SplitRecommendation.continue_exploring
          "Agent reached max turns without decision - defaulting to continue" warning) := by
  intro fuel
  induction fuel with
  | zero => intro _; rfl
  | succ n ih =>
    intro turn
    obtain ⟨hd, tl, hresp, hfd⟩ := h turn
    show (match responses turn with
      | .raises => none
      | .tool_use head tail =>
        match find_decision (head :: tail) with
        | some d => parse_decision_response d branch warning
        | none => eval_turns branch warning responses (turn + 1) n
      | .end_turn =>
        some (SplitRecommendation.continue_exploring
          "Agent did not make explicit decision - defaulting to continue" warning)
      | .other_stop =>
        some (SplitRecommendation.continue_exploring
          "Agent reached max turns without decision - defaulting to continue" warning)) = _
    rw [hresp]
    show (match find_decision (hd :: tl) with
      | some d => parse_decision_response d branch warning
      | none => eval_turns branch warning responses (turn + 1) n) = _
    rw [hfd]
    exact ih (turn + 1)

theorem eval_turns_raises (branch : Branch) (warning : Option ContextWarning)
    (responses : Nat → TurnResponse) :
    ∀ (fuel turn k : Nat), turn ≤ k → k < turn + fuel →
      (∀ t, turn ≤ t → t < k → ∃ hd tl, responses t = .tool_use hd tl ∧
        find_decision (hd :: tl) = none) →
      responses k = .raises →
      eval_turns branch warning responses turn fuel = none := by
  intro fuel
  induction fuel with
  | zero =>
    intro turn k h1 h2 _ _
    omega
  | succ n ih =>
    intro turn k h1 h2 hpre hk
    by_cases he : turn = k
    · subst he
      show (match responses turn with
        | .raises => none
        | .tool_use head tail =>
          match find_decision (head :: tail) with
          | some d => parse_decision_response d branch warning
          | none => eval_turns branch warning responses (turn + 1) n
        | .end_turn =>
          some (SplitRecommendation.continue_exploring
            "Agent did not make explicit decision - defaulting to continue" warning)
        | .other_stop =>
          some (SplitRecommendation.continue_exploring
            "Agent reached max turns without decision - defaulting to continue" warning)) =
        none
      rw [hk]
    · obtain ⟨hd, tl, hresp, hfd⟩ := hpre turn le_rfl (by omega)
      show (match responses turn with
        | .raises => none
        | .tool_use head tail =>
          match find_decision (head :: tail) with
          | some d => parse_decision_response d branch warning
          | none => eval_turns branch warning responses (turn + 1) n
        | .end_turn =>
          some (SplitRecommendation.continue_exploring
            "Agent did not make explicit decision - defaulting to continue" warning)
        | .other_stop =>
          some (SplitRecommendation.continue_exploring
            "Agent reached max turns without decision - defaulting to continue" warning)) =
        none
      rw [hresp]
      show (match find_decision (hd :: tl) with
        | some d => parse_decision_response d branch warning
        | none => eval_turns branch warning responses (turn + 1) n) = none
      rw [hfd]
      exact ih (turn + 1) k (by omega) (by omega)
        (fun t ht1 ht2 => hpre t (by omega) ht2) hk

/-- C8 counterexample: a branch eligible for evaluation (five papers,
forced) whose first agent turn raises yields `None` from
`evaluate_branch` — not a CONTINUE recommendation carrying the context
warning, contrary to the claim's uniform degradation. -/
theorem claim_C8_counterexample :
    should_evaluate {} 0 sample_branch_eval true = true ∧
    evaluate_branch {} 0 sample_branch_eval true (fun _ => .raises) = none := by
  exact ⟨by decide, by with_unfolding_all rfl⟩

/-- C8 amended: when the agent exhausts `max_turns` without calling the
decision tool, or returns malformed decision input (unknown action string,
or SPLIT without a usable branch configuration), the effective decision is
a CONTINUE recommendation with the original context warning preserved; but
when the agent raises — at whichever turn the loop has reached —
`evaluate_branch` returns null (no recommendation, warning dropped), which
the master agent treats as a no-op; and for every consultation outcome
whatsoever, `run_iteration` completes normally, so the scheduler never
crashes. -/
theorem claim_C8 :
    (∀ (cfg : ManagingAgentConfig) (ec : Nat) (branch : Branch) (force : Bool)
      (responses : Nat → TurnResponse),
      should_evaluate cfg ec branch force = true →
      (∀ t, ∃ hd tl, responses t = .tool_use hd tl ∧ find_decision (hd :: tl) = none) →
      evaluate_branch cfg ec branch force responses =
        some (SplitRecommendation.continue_exploring
          "Agent reached max turns without decision - defaulting to continue"
          (get_context_status_warning branch))) ∧
    (∀ (d : DecisionInput) (branch : Branch) (warning : Option ContextWarning),
      d.parse_raises = false →
      d.action.getD "continue" ≠ "split" → d.action.getD "continue" ≠ "wrap_up" →
      parse_decision_response d branch warning =
        some (SplitRecommendation.continue_exploring
          (d.reasoning.getD "No reasoning provided") warning)) ∧
    (∀ (d : DecisionInput) (branch : Branch) (warning : Option ContextWarning) sc,
      d.parse_raises = false → d.action = some "split" →
      d.split_config = some sc → sc.branches = [] →
      parse_decision_response d branch warning =
        some (SplitRecommendation.continue_exploring
          ("Split was recommended but configuration was incomplete: " ++
            d.reasoning.getD "No reasoning provided") warning)) ∧
    (∀ (cfg : ManagingAgentConfig) (ec : Nat) (branch : Branch) (force : Bool)
      (responses : Nat → TurnResponse) (k : Nat), k < 5 →
      (∀ t < k, ∃ hd tl, responses t = .tool_use hd tl ∧
        find_decision (hd :: tl) = none) →
      responses k = .raises →
      evaluate_branch cfg ec branch force responses = none) ∧
    (∀ (flags : MasterFlags) (cfg : BranchConfig) (idGen : Nat → String)
      (state : LoopState) (id : String) (br : Branch) (iter : IterationResult)
      (consult : Option SplitRecommendation) (hypr : IterationResult),
      flags.has_managing_agent = true → state.get_branch id = some br →
      ∃ s, master_run_iteration flags cfg idGen state id iter consult hypr =
        .ok (s, iter)) := by
  refine ⟨?_, ?_, ?_, ?_, ?_⟩
  · intro cfg ec branch force responses hgate h
    unfold evaluate_branch
    rw [if_pos hgate]
    exact eval_turns_no_decision branch (get_context_status_warning branch) responses h 5 0
  · intro d branch warning h0 h1 h2
    unfold parse_decision_response
    rw [if_neg (by rw [h0]; exact Bool.false_ne_true), if_neg h2, if_neg h1]
  · intro d branch warning sc h0 ha hsc hb
    unfold parse_decision_response
    rw [if_neg (by rw [h0]; exact Bool.false_ne_true),
      if_neg (by rw [ha]; decide), if_pos (by rw [ha]; rfl), hsc]
    show (if sc.branches = [] then
        some (SplitRecommendation.continue_exploring
          ("Split was recommended but configuration was incomplete: " ++
            d.reasoning.getD "No reasoning provided") warning)
      else
        some { should_split := true, action := BranchAction.split,
               num_branches := sc.branches.length,
               paper_groups := sc.branches.map (·.paper_ids),
               group_queries := sc.branches.map (fun b => b.query.getD branch.query),
               group_labels := sc.branches.enum.map
                 (fun ib => ib.2.label.getD ("Branch " ++ toString (ib.1 + 1))),
               reasoning := d.reasoning.getD "No reasoning provided",
               context_warning := warning }) = _
    rw [if_pos hb]
  · intro cfg ec branch force responses k hk hpre hr
    unfold evaluate_branch
    split
    · exact eval_turns_raises branch (get_context_status_warning branch) responses 5 0 k
        (Nat.zero_le k) (by omega) (fun t _ ht2 => hpre t ht2) hr
    · rfl
  · intro flags cfg idGen state id br iter consult hypr hma hb
    unfold master_run_iteration
    rw [hb]
    simp only [hma, if_true]
    cases consult <;> exact ⟨_, rfl⟩

/-- Witness for the amended C8: five non-decision tool turns degrade to
CONTINUE with the (empty) warning preserved; a raise on the third reached
turn yields null; and the master's `run_iteration` completes normally both
when consultation yields nothing and when it yields a CONTINUE
recommendation. -/
theorem claim_C8_witness :
    evaluate_branch {} 0 sample_branch_eval true
        (fun _ => .tool_use (.cluster_papers "topic") []) =
      some (SplitRecommendation.continue_exploring
        "Agent reached max turns without decision - defaulting to continue"
        (get_context_status_warning sample_branch_eval)) ∧
    evaluate_branch {} 0 sample_branch_eval true
        (fun t => if t < 2 then .tool_use (.cluster_papers "topic") [] else .raises) =
      none ∧
    (∃ s, master_run_iteration sample_flags_agent sample_cfg sample_idgen sample_state "b"
      (empty_iteration 2) none (empty_iteration 3) = .ok (s, empty_iteration 2)) ∧
    (∃ s, master_run_iteration sample_flags_agent sample_cfg sample_idgen sample_state "b"
      (empty_iteration 2) (some (SplitRecommendation.continue_exploring "keep" none))
      (empty_iteration 3) = .ok (s, empty_iteration 2)) := by
  refine ⟨claim_C8.1 {} 0 sample_branch_eval true _ (by decide)
      (fun t => ⟨.cluster_papers "topic", [], rfl, rfl⟩), ?_, ?_, ?_⟩
  · refine claim_C8.2.2.2.1 {} 0 sample_branch_eval true _ 2 (by decide)
      (fun t ht => ⟨.cluster_papers "topic", [], ?_, rfl⟩) (by decide)
    rw [if_pos ht]
  · exact claim_C8.2.2.2.2 sample_flags_agent sample_cfg sample_idgen sample_state "b"
      sample_branch_b (empty_iteration 2) none (empty_iteration 3) rfl (by decide)
  · exact claim_C8.2.2.2.2 sample_flags_agent sample_cfg sample_idgen sample_state "b"
      sample_branch_b (empty_iteration 2)
      (some (SplitRecommendation.continue_exploring "keep" none)) (empty_iteration 3)
      rfl (by decide)

end ERLA
